import Mathlib

/-!
# MediaLive resources of the AWS provider: input and input security group

A shallow embedding of `aws/resource_aws_media_live_input.go` and
`aws/resource_aws_media_live_input_security_group.go`.

* Go strings are Lean strings; a `*string` is an `Option String` (`nil` is `none`),
  and `aws.String(s)` is `some s`.
* A Go slice is a `List`; the nil slice and the empty slice are both `[]`.
* A `*schema.Set` is represented by its `List()`, the ordered listing of its
  elements, so two sets are equal exactly when their listings are equal.
* The API client `conn` is a record of response functions.  Every call is appended
  to a log of events; the response to a call is a function of the number of calls
  already logged and of the request, so a run is deterministic and the log is the
  complete trace of remote interaction.
* A function that returns `error` returns `Option GoError` (`nil` is `none`).
-/

/-! ## Errors -/

/-- An error value returned by the API client: either an `awserr.Error` with its
code and message, or any other error with the text of its `Error()`. -/
inductive ClientError where
  | aws (code message : String)
  | other (text : String)
deriving DecidableEq, Repr

/-- A Go `error` value as the resource functions see it: an error of the API client,
an error built by `fmt.Errorf`, or the `*resource.TimeoutError` of `resource.Retry`
that carries no last error. -/
inductive GoError where
  | client (e : ClientError)
  | errorf (text : String)
  | timeout
deriving DecidableEq, Repr

/-- The text of `Error()` of a client error (`awserr` prints code, colon, message). -/
def ClientError.Error : ClientError → String
  | .aws code message => code ++ ": " ++ message
  | .other text => text

/-- The text of `Error()`, which is what the verb `%s` prints for an error. -/
def GoError.Error : GoError → String
  | .client e => e.Error
  | .errorf text => text
  | .timeout => "timeout while waiting for state to become success"

namespace fmt

/-- The error of `fmt.Errorf`, given the already formatted text. -/
def Errorf (text : String) : GoError := GoError.errorf text

end fmt

namespace aws

/-- The value of a string pointer, `""` for nil (`aws.StringValue`). -/
def StringValue : Option String → String
  | some s => s
  | none => ""

end aws

namespace strings

/-- The pieces of a character list between the occurrences of the separator:
`strings.Split` for a separator of one character.  The empty list has the single
piece `[]`. -/
def splitChars (sep : Char) : List Char → List (List Char)
  | [] => [[]]
  | c :: cs =>
    if c = sep then [] :: splitChars sep cs
    else
      match splitChars sep cs with
      | [] => [[c]]
      | p :: ps => (c :: p) :: ps

/-- Go `strings.Split(s, sep)` where `sep` is a string of one character. -/
def Split (s : String) (sep : Char) : List String :=
  (splitChars sep s.data).map String.mk

end strings

/-! ## The request and response shapes of the MediaLive client -/

/-- A tag map, string to string, listed in key order. -/
abbrev Tags := List (String × String)

namespace medialive

def ErrCodeNotFoundException : String := "NotFoundException"

def InputTypeRtmpPush : String := "RTMP_PUSH"

def InputTypeRtpPush : String := "RTP_PUSH"

def InputTypeUdpPush : String := "UDP_PUSH"

structure InputDestinationRequest where
  StreamName : Option String := none
deriving DecidableEq, Repr

structure InputVpcRequest where
  SecurityGroupIds : List String := []
  SubnetIds : List String := []
deriving DecidableEq, Repr

structure InputDestinationVpc where
  AvailabilityZone : Option String := none
  NetworkInterfaceId : Option String := none
deriving DecidableEq, Repr

structure InputDestination where
  Ip : Option String := none
  Port : Option String := none
  Url : Option String := none
  Vpc : Option InputDestinationVpc := none
deriving DecidableEq, Repr

structure InputWhitelistRuleCidr where
  Cidr : Option String := none
deriving DecidableEq, Repr

/-- A whitelist rule of a described security group (`medialive.InputWhitelistRule`). -/
structure InputWhitelistRule where
  Cidr : Option String := none
deriving DecidableEq, Repr

/-- The create request; `Type_` is the field `Type` of the Go struct. -/
structure CreateInputInput where
  Destinations : List InputDestinationRequest := []
  InputSecurityGroups : List String := []
  Name : Option String := none
  Tags : Tags := []
  Type_ : Option String := none
  Vpc : Option InputVpcRequest := none
deriving DecidableEq, Repr

/-- The created input of `CreateInputOutput`, of which the resource reads the ID. -/
structure CreateInputOutput where
  Id : Option String := none
deriving DecidableEq, Repr

structure DescribeInputInput where
  InputId : Option String := none
deriving DecidableEq, Repr

structure DescribeInputOutput where
  Arn : Option String := none
  Destinations : List InputDestination := []
  Id : Option String := none
  InputClass : Option String := none
  InputSourceType : Option String := none
  Name : Option String := none
  State : Option String := none
  Tags : Tags := []
deriving DecidableEq, Repr

/-- The update request: every field but the ID is optional, and there is no field
for the type or the VPC of the input. -/
structure UpdateInputInput where
  Destinations : List InputDestinationRequest := []
  InputId : Option String := none
  InputSecurityGroups : List String := []
  Name : Option String := none
  RoleArn : Option String := none
deriving DecidableEq, Repr

structure DeleteInputInput where
  InputId : Option String := none
deriving DecidableEq, Repr

structure CreateInputSecurityGroupInput where
  Tags : Tags := []
  WhitelistRules : List InputWhitelistRuleCidr := []
deriving DecidableEq, Repr

/-- The created group of `CreateInputSecurityGroupOutput`, of which the resource reads the ID. -/
structure CreateInputSecurityGroupOutput where
  Id : Option String := none
deriving DecidableEq, Repr

structure DescribeInputSecurityGroupInput where
  InputSecurityGroupId : Option String := none
deriving DecidableEq, Repr

structure DescribeInputSecurityGroupOutput where
  Arn : Option String := none
  Id : Option String := none
  State : Option String := none
  Tags : Tags := []
  WhitelistRules : List InputWhitelistRule := []
deriving DecidableEq, Repr

structure UpdateInputSecurityGroupInput where
  InputSecurityGroupId : Option String := none
  Tags : Tags := []
  WhitelistRules : List InputWhitelistRuleCidr := []
deriving DecidableEq, Repr

structure DeleteInputSecurityGroupInput where
  InputSecurityGroupId : Option String := none
deriving DecidableEq, Repr

end medialive

/-! ## Resource data

The attributes of a resource follow its schema.  `ResourceData` holds the ID, the
attribute values of the prior state and the current values: the configuration merged
over the state, overwritten by what `d.Set` has written.  An attribute is named by
its accessor: `d.Get (·.name)` is `d.Get("name")`. -/

/-- The block `destinations.vpc` of the input schema. -/
structure DestinationVpcAttrs where
  availability_zone : String := ""
  network_interface_id : String := ""
deriving DecidableEq, Repr

/-- The block `destinations` of the input schema. -/
structure DestinationAttrs where
  endpoint : String := ""
  ip : String := ""
  port : String := ""
  url : String := ""
  vpc : List DestinationVpcAttrs := []
deriving DecidableEq, Repr

/-- The block `vpc` of the input schema. -/
structure VpcAttrs where
  security_group_ids : List String := []
  subnet_ids : List String := []
deriving DecidableEq, Repr

/-- The schema of `aws_media_live_input`; `type_` is the attribute `type`. -/
structure InputAttrs where
  arn : String := ""
  destinations : List DestinationAttrs := []
  input_class : String := ""
  input_security_groups : List String := []
  name : String := ""
  type_ : String := ""
  vpc : List VpcAttrs := []
  tags : Tags := []
deriving DecidableEq, Repr

/-- The schema of `aws_media_live_input_security_group`. -/
structure InputSecurityGroupAttrs where
  arn : String := ""
  ipv4_whitelist : List String := []
  tags : Tags := []
deriving DecidableEq, Repr

/-- The `*schema.ResourceData` of a resource whose attributes have type `A`. -/
structure ResourceData (A : Type) where
  id : String
  state : A
  attrs : A
deriving DecidableEq, Repr

namespace ResourceData

variable {A : Type}

def Id (d : ResourceData A) : String := d.id

def SetId (d : ResourceData A) (v : String) : ResourceData A := { d with id := v }

/-- The current value of an attribute (`d.Get`). -/
def Get {α : Type} (d : ResourceData A) (key : A → α) : α := key d.attrs

/-- The old and the new value of an attribute (`d.GetChange`). -/
def GetChange {α : Type} (d : ResourceData A) (key : A → α) : α × α :=
  (key d.state, key d.attrs)

/-- Whether the old and the new value of an attribute differ (`d.HasChange`). -/
def HasChange {α : Type} [DecidableEq α] (d : ResourceData A) (key : A → α) : Bool :=
  let (o, n) := d.GetChange key
  decide (o ≠ n)

/-- Write the current attribute values (`d.Set`), given the updated record. -/
def Set (d : ResourceData A) (update : A → A) : ResourceData A :=
  { d with attrs := update d.attrs }

end ResourceData

/-! ## The API client and the trace of its calls -/

/-- A call on the MediaLive connection.  `UpdateTags` is the call of
`keyvaluetags.MedialiveUpdateTags(conn, arn, o, n)`, which diffs the two tag maps and
talks to the service itself. -/
inductive Call where
  | CreateInput (input : medialive.CreateInputInput)
  | DescribeInput (input : medialive.DescribeInputInput)
  | UpdateInput (input : medialive.UpdateInputInput)
  | DeleteInput (input : medialive.DeleteInputInput)
  | CreateInputSecurityGroup (input : medialive.CreateInputSecurityGroupInput)
  | DescribeInputSecurityGroup (input : medialive.DescribeInputSecurityGroupInput)
  | UpdateInputSecurityGroup (input : medialive.UpdateInputSecurityGroupInput)
  | DeleteInputSecurityGroup (input : medialive.DeleteInputSecurityGroupInput)
  | UpdateTags (arn : String) (oldTags newTags : Tags)
deriving DecidableEq, Repr

/-- One entry of the trace: the call and the error it returned, if any. -/
structure Event where
  call : Call
  err : Option GoError
deriving DecidableEq, Repr

/-- The behaviour of the remote service behind `conn`: the response to each kind of
call, given the number of calls made before it and the request. -/
structure MediaLive where
  createInput : Nat → medialive.CreateInputInput → Except ClientError medialive.CreateInputOutput
  describeInput : Nat → medialive.DescribeInputInput → Except ClientError medialive.DescribeInputOutput
  updateInput : Nat → medialive.UpdateInputInput → Option ClientError
  deleteInput : Nat → medialive.DeleteInputInput → Option ClientError
  createInputSecurityGroup : Nat → medialive.CreateInputSecurityGroupInput →
    Except ClientError medialive.CreateInputSecurityGroupOutput
  describeInputSecurityGroup : Nat → medialive.DescribeInputSecurityGroupInput →
    Except ClientError medialive.DescribeInputSecurityGroupOutput
  updateInputSecurityGroup : Nat → medialive.UpdateInputSecurityGroupInput → Option ClientError
  deleteInputSecurityGroup : Nat → medialive.DeleteInputSecurityGroupInput → Option ClientError
  updateTags : Nat → String → Tags → Tags → Option GoError

/-- The error of a client response as a Go error. -/
def errOf {α : Type} : Except ClientError α → Option GoError
  | .ok _ => none
  | .error e => some (GoError.client e)

namespace MediaLive

def CreateInput (conn : MediaLive) (input : medialive.CreateInputInput) (log : List Event) :
    Except ClientError medialive.CreateInputOutput × List Event :=
  let r := conn.createInput log.length input
  (r, log ++ [Event.mk (Call.CreateInput input) (errOf r)])

def DescribeInput (conn : MediaLive) (input : medialive.DescribeInputInput) (log : List Event) :
    Except ClientError medialive.DescribeInputOutput × List Event :=
  let r := conn.describeInput log.length input
  (r, log ++ [Event.mk (Call.DescribeInput input) (errOf r)])

def UpdateInput (conn : MediaLive) (input : medialive.UpdateInputInput) (log : List Event) :
    Option ClientError × List Event :=
  let r := conn.updateInput log.length input
  (r, log ++ [Event.mk (Call.UpdateInput input) (r.map GoError.client)])

def DeleteInput (conn : MediaLive) (input : medialive.DeleteInputInput) (log : List Event) :
    Option ClientError × List Event :=
  let r := conn.deleteInput log.length input
  (r, log ++ [Event.mk (Call.DeleteInput input) (r.map GoError.client)])

def CreateInputSecurityGroup (conn : MediaLive) (input : medialive.CreateInputSecurityGroupInput)
    (log : List Event) : Except ClientError medialive.CreateInputSecurityGroupOutput × List Event :=
  let r := conn.createInputSecurityGroup log.length input
  (r, log ++ [Event.mk (Call.CreateInputSecurityGroup input) (errOf r)])

def DescribeInputSecurityGroup (conn : MediaLive)
    (input : medialive.DescribeInputSecurityGroupInput) (log : List Event) :
    Except ClientError medialive.DescribeInputSecurityGroupOutput × List Event :=
  let r := conn.describeInputSecurityGroup log.length input
  (r, log ++ [Event.mk (Call.DescribeInputSecurityGroup input) (errOf r)])

def UpdateInputSecurityGroup (conn : MediaLive)
    (input : medialive.UpdateInputSecurityGroupInput) (log : List Event) :
    Option ClientError × List Event :=
  let r := conn.updateInputSecurityGroup log.length input
  (r, log ++ [Event.mk (Call.UpdateInputSecurityGroup input) (r.map GoError.client)])

def DeleteInputSecurityGroup (conn : MediaLive)
    (input : medialive.DeleteInputSecurityGroupInput) (log : List Event) :
    Option ClientError × List Event :=
  let r := conn.deleteInputSecurityGroup log.length input
  (r, log ++ [Event.mk (Call.DeleteInputSecurityGroup input) (r.map GoError.client)])

end MediaLive

namespace keyvaluetags

/-- The call `keyvaluetags.MedialiveUpdateTags(conn, arn, o, n)`, logged as one event. -/
def MedialiveUpdateTags (conn : MediaLive) (arn : String) (o n : Tags) (log : List Event) :
    Option GoError × List Event :=
  let r := conn.updateTags log.length arn o n
  (r, log ++ [Event.mk (Call.UpdateTags arn o n) r])

end keyvaluetags

/-! ## Helpers of the provider and of the plugin SDK -/

/-- Functions that the resources call and whose definitions are in other files of the
provider; they are parameters of the embedding.  `readTags` stands for
`keyvaluetags.MedialiveKeyValueTags(t).IgnoreAws().IgnoreConfig(ignoreTagsConfig).Map()`,
`createTags` for `keyvaluetags.New(v).IgnoreAws().MedialiveTags()`, and `attempts` is
the clock of `resource.Retry`: the number of calls of the retried function that
complete before `resource.Retry`, given a timeout in seconds, gives up. -/
structure Helpers where
  expandStringList : List String → List String
  readTags : Tags → Tags
  createTags : Tags → Tags
  attempts : Nat → Nat

/-- The provider client `meta.(*AWSClient)`. -/
structure AWSClient where
  medialiveconn : MediaLive

/-- Modelled from the spec: `isAWSErr` is defined outside the files under src/.  The
remote client has a distinguishable not-found error kind: the error is an
`awserr.Error` with the given code whose message contains the given text. -/
def isAWSErr (err : ClientError) (code : String) (message : String) : Bool :=
  match err with
  | .aws c m => decide (c = code) && decide (message.data <:+: m.data)
  | .other _ => false

/-- Modelled from the spec: `isResourceTimeoutError` is defined outside the files under
src/.  It recognises the timeout error of `resource.Retry` that carries no last error,
with which the poll ends when its timeout elapses before any attempt completed. -/
def isResourceTimeoutError (err : Option GoError) : Bool :=
  match err with
  | some GoError.timeout => true
  | _ => false

namespace resource

/-- The `*resource.RetryError` that the retried function returns. -/
structure RetryError where
  Err : GoError
  Retryable : Bool
deriving DecidableEq, Repr

def RetryableError (err : GoError) : RetryError := { Err := err, Retryable := true }

def NonRetryableError (err : GoError) : RetryError := { Err := err, Retryable := false }

/-- The loop of `Retry` with a budget of attempts.  `resultErr` is the error of the
last attempt that completed, nil before the first one.  `f` is called until it returns
nil (success), a non-retryable error (which is returned), or the budget is used up:
then the result is `resultErr` when an attempt completed, and otherwise the timeout
error, which carries no last error. -/
def retryLoop {σ : Type} (f : σ → Option RetryError × σ) :
    Nat → Option GoError → σ → Option GoError × σ
  | 0, resultErr, s =>
    match resultErr with
    | some err => (some err, s)
    | none => (some GoError.timeout, s)
  | n + 1, _, s =>
    match f s with
    | (none, s) => (none, s)
    | (some rerr, s) =>
      if rerr.Retryable then retryLoop f n (some rerr.Err) s else (some rerr.Err, s)

/-- Modelled from the spec: `resource.Retry` of the plugin SDK is not under src/.  The
poll repeats until the function reports success, reports a non-retryable error, or the
timeout elapses; the timeout (in seconds) is turned into a number of attempts by the
clock, so that real time does not appear.  As in the SDK, when the timeout elapses
after an attempt has completed, the error of the last attempt is returned, not a
timeout error; the timeout error is returned only when no attempt completed, and a
call that has not completed by then is abandoned and leaves no entry in the trace. -/
def Retry {σ : Type} (clock : Nat → Nat) (timeout : Nat) (f : σ → Option RetryError × σ)
    (s : σ) : Option GoError × σ :=
  retryLoop f (clock timeout) none s

end resource

/-! ## aws_media_live_input -/

/-- The types of input that the schema accepts for the attribute `type`. -/
def validAwsMediaLiveInputTypes : List String :=
  [medialive.InputTypeRtmpPush, medialive.InputTypeRtpPush, medialive.InputTypeUdpPush]

def expandInputDestinationRequest (v : List DestinationAttrs) :
    List medialive.InputDestinationRequest :=
  v.foldl
    (fun destinations dest =>
      destinations ++ [({ StreamName := some dest.endpoint } : medialive.InputDestinationRequest)])
    []

/-- The index 3 is in range because of the length test before it, which is what lets
the definition be total. -/
def endpointFromURL (u : Option String) : String :=
  let parts := strings.Split (aws.StringValue u) '/'
  if h : parts.length < 4 then
    ""
  else
    parts.get ⟨3, by omega⟩

/-- The map that `flattenInputDestinations` builds for one destination; the key `vpc`
is present exactly when `vpc` is `some`. -/
structure FlatDestination where
  endpoint : String
  ip : Option String
  port : Option String
  url : Option String
  vpc : Option medialive.InputDestinationVpc := none
deriving DecidableEq, Repr

def flattenInputDestinations (is : List medialive.InputDestination) : List FlatDestination :=
  is.foldl
    (fun out i =>
      let destination : FlatDestination :=
        { endpoint := endpointFromURL i.Url, ip := i.Ip, port := i.Port, url := i.Url }
      let destination :=
        match i.Vpc with
        | some vpc =>
          { destination with
            vpc := some { AvailabilityZone := vpc.AvailabilityZone,
                          NetworkInterfaceId := vpc.NetworkInterfaceId } }
        | none => destination
      out ++ [destination])
    []

/-- What `d.Set("destinations", ...)` stores for a flattened destination: the values
behind the pointers, and the block `vpc` with one element when the key is present. -/
def FlatDestination.toAttrs (f : FlatDestination) : DestinationAttrs :=
  { endpoint := f.endpoint
    ip := aws.StringValue f.ip
    port := aws.StringValue f.port
    url := aws.StringValue f.url
    vpc :=
      match f.vpc with
      | some v =>
        [{ availability_zone := aws.StringValue v.AvailabilityZone
           network_interface_id := aws.StringValue v.NetworkInterfaceId }]
      | none => [] }

/-- The result of `d.Set("tags", m)` for a map of strings: the write succeeds. -/
def setTags {A : Type} (d : ResourceData A) (update : A → A) : Option GoError × ResourceData A :=
  (none, d.Set update)

def resourceAwsMediaLiveInputRead (h : Helpers) (d : ResourceData InputAttrs) (meta : AWSClient)
    (log : List Event) : Option GoError × ResourceData InputAttrs × List Event :=
  let conn := meta.medialiveconn
  let input : medialive.DescribeInputInput := { InputId := some d.Id }
  match conn.DescribeInput input log with
  | (.error err, log) =>
    (some (fmt.Errorf ("error describing MediaLive Input: " ++ err.Error)), d, log)
  | (.ok resp, log) =>
    let d := d.Set (fun a => { a with arn := aws.StringValue resp.Arn })
    let d :=
      if resp.Destinations.length > 0 then
        d.Set (fun a =>
          { a with destinations := (flattenInputDestinations resp.Destinations).map (·.toAttrs) })
      else d
    let d := d.Set (fun a => { a with input_class := aws.StringValue resp.InputClass })
    -- d.Set("input_source_type", ...): the schema has no such key, nothing is written
    let d := d.Set (fun a => { a with name := aws.StringValue resp.Name })
    match setTags d (fun a => { a with tags := h.readTags resp.Tags }) with
    | (some err, d) => (some (fmt.Errorf ("error setting tags: " ++ err.Error)), d, log)
    | (none, d) => (none, d, log)

def resourceAwsMediaLiveInputUpdate (h : Helpers) (d : ResourceData InputAttrs) (meta : AWSClient)
    (log : List Event) : Option GoError × ResourceData InputAttrs × List Event :=
  let conn := meta.medialiveconn
  let (err, log) :=
    if d.HasChange (·.destinations) then
      conn.UpdateInput
        { InputId := some d.Id
          Destinations := expandInputDestinationRequest (d.Get (·.destinations)) } log
    else (none, log)
  match err with
  | some err => (some (fmt.Errorf ("error updating MediaLive Input: " ++ err.Error)), d, log)
  | none =>
  let (err, log) :=
    if d.HasChange (·.input_security_groups) then
      conn.UpdateInput
        { InputId := some d.Id
          InputSecurityGroups := h.expandStringList (d.Get (·.input_security_groups)) } log
    else (none, log)
  match err with
  | some err => (some (fmt.Errorf ("error updating MediaLive Input: " ++ err.Error)), d, log)
  | none =>
  let (err, log) :=
    if d.HasChange (·.name) then
      conn.UpdateInput { InputId := some d.Id, Name := some (d.Get (·.name)) } log
    else (none, log)
  match err with
  | some err => (some (fmt.Errorf ("error updating MediaLive Input: " ++ err.Error)), d, log)
  | none =>
  let arn := d.Get (·.arn)
  let (err, log) :=
    if d.HasChange (·.tags) then
      let (o, n) := d.GetChange (·.tags)
      keyvaluetags.MedialiveUpdateTags conn arn o n log
    else (none, log)
  match err with
  | some err =>
    (some (fmt.Errorf ("error updating MediaPackage Channel (" ++ arn ++ ") tags: " ++ err.Error)),
      d, log)
  | none => resourceAwsMediaLiveInputRead h d meta log

def resourceAwsMediaLiveInputDelete (h : Helpers) (d : ResourceData InputAttrs) (meta : AWSClient)
    (log : List Event) : Option GoError × List Event :=
  let conn := meta.medialiveconn
  let input : medialive.DeleteInputInput := { InputId := some d.Id }
  match conn.DeleteInput input log with
  | (some err, log) =>
    if isAWSErr err medialive.ErrCodeNotFoundException "" then (none, log)
    else (some (fmt.Errorf ("error deleting MediaLive Input: " ++ err.Error)), log)
  | (none, log) =>
    let dinput : medialive.DescribeInputInput := { InputId := some d.Id }
    let (err, log) :=
      resource.Retry h.attempts 30
        (fun log =>
          match conn.DescribeInput dinput log with
          | (.error err, log) =>
            if isAWSErr err medialive.ErrCodeNotFoundException "" then (none, log)
            else (some (resource.NonRetryableError (GoError.client err)), log)
          | (.ok resp, log) =>
            if aws.StringValue resp.State = "DELETED" then (none, log)
            else
              (some (resource.RetryableError
                (fmt.Errorf ("MediaLive Input (" ++ d.Id ++ ") still exists"))), log))
        log
    let (err, log) :=
      if isResourceTimeoutError err then
        let (r, log) := conn.DescribeInput dinput log
        (errOf r, log)
      else (err, log)
    match err with
    | some err =>
      (some (fmt.Errorf
        ("error waiting for MediaLive Input (" ++ d.Id ++ ") deletion: " ++ err.Error)), log)
    | none => (none, log)

/-! ## aws_media_live_input_security_group -/

def expandIPv4Whitelist (cidrs : List String) : List medialive.InputWhitelistRuleCidr :=
  cidrs.foldl
    (fun rules cidr => rules ++ [({ Cidr := some cidr } : medialive.InputWhitelistRuleCidr)])
    []

def resourceAwsMediaLiveInputSecurityGroupRead (h : Helpers)
    (d : ResourceData InputSecurityGroupAttrs) (meta : AWSClient) (log : List Event) :
    Option GoError × ResourceData InputSecurityGroupAttrs × List Event :=
  let conn := meta.medialiveconn
  let input : medialive.DescribeInputSecurityGroupInput := { InputSecurityGroupId := some d.Id }
  match conn.DescribeInputSecurityGroup input log with
  | (.error err, log) =>
    (some (fmt.Errorf ("error describing MediaLive Input Security Group: " ++ err.Error)), d, log)
  | (.ok resp, log) =>
    let d := d.Set (fun a => { a with arn := aws.StringValue resp.Arn })
    let whitelist : List (Option String) :=
      resp.WhitelistRules.foldl (fun whitelist cidr => whitelist ++ [cidr.Cidr]) []
    let d := d.Set (fun a => { a with ipv4_whitelist := whitelist.map aws.StringValue })
    match setTags d (fun a => { a with tags := h.readTags resp.Tags }) with
    | (some err, d) => (some (fmt.Errorf ("error setting tags: " ++ err.Error)), d, log)
    | (none, d) => (none, d, log)

def resourceAwsMediaLiveInputSecurityGroupUpdate (h : Helpers)
    (d : ResourceData InputSecurityGroupAttrs) (meta : AWSClient) (log : List Event) :
    Option GoError × ResourceData InputSecurityGroupAttrs × List Event :=
  let conn := meta.medialiveconn
  let (err, log) :=
    if d.HasChange (·.ipv4_whitelist) then
      let input : medialive.UpdateInputSecurityGroupInput :=
        { InputSecurityGroupId := some d.Id
          WhitelistRules := expandIPv4Whitelist (d.Get (·.ipv4_whitelist)) }
      conn.UpdateInputSecurityGroup input log
    else (none, log)
  match err with
  | some err =>
    (some (fmt.Errorf ("error updating MediaLive Input Security Group: " ++ err.Error)), d, log)
  | none =>
  let arn := d.Get (·.arn)
  let (err, log) :=
    if d.HasChange (·.tags) then
      let (o, n) := d.GetChange (·.tags)
      keyvaluetags.MedialiveUpdateTags conn arn o n log
    else (none, log)
  match err with
  | some err =>
    (some (fmt.Errorf ("error updating MediaPackage Channel (" ++ arn ++ ") tags: " ++ err.Error)),
      d, log)
  | none => resourceAwsMediaLiveInputSecurityGroupRead h d meta log

def resourceAwsMediaLiveInputSecurityGroupDelete (h : Helpers)
    (d : ResourceData InputSecurityGroupAttrs) (meta : AWSClient) (log : List Event) :
    Option GoError × List Event :=
  let conn := meta.medialiveconn
  let input : medialive.DeleteInputSecurityGroupInput := { InputSecurityGroupId := some d.Id }
  match conn.DeleteInputSecurityGroup input log with
  | (some err, log) =>
    if isAWSErr err medialive.ErrCodeNotFoundException "" then (none, log)
    else (some (fmt.Errorf ("error deleting MediaLive Input Security Group: " ++ err.Error)), log)
  | (none, log) =>
    let dinput : medialive.DescribeInputSecurityGroupInput :=
      { InputSecurityGroupId := some d.Id }
    let (err, log) :=
      resource.Retry h.attempts (5 * 60)
        (fun log =>
          match conn.DescribeInputSecurityGroup dinput log with
          | (.error err, log) =>
            if isAWSErr err medialive.ErrCodeNotFoundException "" then (none, log)
            else (some (resource.NonRetryableError (GoError.client err)), log)
          | (.ok resp, log) =>
            if aws.StringValue resp.State = "DELETED" then (none, log)
            else
              (some (resource.RetryableError
                (fmt.Errorf ("MediaLive Input Security Group (" ++ d.Id ++ ") still exists"))),
                log))
        log
    let (err, log) :=
      if isResourceTimeoutError err then
        let (r, log) := conn.DescribeInputSecurityGroup dinput log
        (errOf r, log)
      else (err, log)
    match err with
    | some err =>
      (some (fmt.Errorf
        ("error waiting for MediaLive Input Security Group (" ++ d.Id ++ ") deletion: "
          ++ err.Error)), log)
    | none => (none, log)

/-! ## Sample services and helpers -/

/-- A service on which every call succeeds and every described entity is in the given
state. -/
def steadyService (state : String) : MediaLive where
  createInput _ _ := .ok { Id := some "1234567" }
  describeInput _ input := .ok { Id := input.InputId, State := some state }
  updateInput _ _ := none
  deleteInput _ _ := none
  createInputSecurityGroup _ _ := .ok { Id := some "7654321" }
  describeInputSecurityGroup _ input := .ok { Id := input.InputSecurityGroupId, State := some state }
  updateInputSecurityGroup _ _ := none
  deleteInputSecurityGroup _ _ := none
  updateTags _ _ _ _ := none

/-- The helpers that keep every string and tag, with a clock that allows the given
number of attempts whatever the timeout. -/
def plainHelpers (attempts : Nat) : Helpers where
  expandStringList l := l
  readTags t := t
  createTags t := t
  attempts _ := attempts

/-! ## Reference definitions used by the statements -/

/-- Reference definition of the endpoint of a URL, in the words of the specification:
split the URL (nil counts as the empty string) on the slash; with fewer than four
segments the result is empty, otherwise it is the segment at index 3. -/
def endpointReference (u : Option String) : String :=
  match strings.Split (u.getD "") '/' with
  | _ :: _ :: _ :: segment :: _ => segment
  | _ => ""

/-- The three classes of an attempt of the delete-confirmation poll. -/
inductive PollClass where
  | done
  | retryable
  | nonRetryable
deriving DecidableEq, Repr

/-- The class of a poll attempt, from the result of its Describe call reduced to the
error or the state of the entity: done when the entity is not found or its state is
exactly DELETED, retryable for any other state, non-retryable for any other error. -/
def pollClass : Except ClientError (Option String) → PollClass
  | .error err =>
    if isAWSErr err medialive.ErrCodeNotFoundException "" then .done else .nonRetryable
  | .ok state => if state = some "DELETED" then .done else .retryable

/-- The update requests of the `UpdateInput` calls of a trace, in order. -/
def updateInputRequests (log : List Event) : List medialive.UpdateInputInput :=
  log.filterMap fun ev =>
    match ev.call with
    | Call.UpdateInput input => some input
    | _ => none

/-! ## Definitions used by the statements and the proofs -/

/-- The flattened map of one remote destination. -/
def flattenOne (i : medialive.InputDestination) : FlatDestination :=
  { endpoint := endpointFromURL i.Url, ip := i.Ip, port := i.Port, url := i.Url,
    vpc := i.Vpc.map fun vpc =>
      { AvailabilityZone := vpc.AvailabilityZone, NetworkInterfaceId := vpc.NetworkInterfaceId } }

/-- The destination that a service at the given host builds for a request: the URL is
rtmp://host/StreamName. -/
def rtmpDestination (host : String) (r : medialive.InputDestinationRequest) :
    medialive.InputDestination :=
  { Ip := some "10.0.0.1", Port := some "1935",
    Url := some ("rtmp" ++ "://" ++ host ++ "/" ++ aws.StringValue r.StreamName) }

/-- The retried function of the Delete functions over an abstract Describe call that
yields the error or the state of the entity. -/
def confirmPoll (describe : Nat → Except ClientError (Option String)) (call : Call)
    (still : String) (log : List Event) : Option resource.RetryError × List Event :=
  let r := describe log.length
  let log := log ++ [Event.mk call (errOf r)]
  match r with
  | .error err =>
    if isAWSErr err medialive.ErrCodeNotFoundException "" then (none, log)
    else (some (resource.NonRetryableError (GoError.client err)), log)
  | .ok state =>
    if aws.StringValue state = "DELETED" then (none, log)
    else (some (resource.RetryableError (fmt.Errorf still)), log)

/-- The part of the Delete functions after a successful delete call, over an abstract
Describe call: the poll, the Describe after a timeout, and the wrapping of the error. -/
def confirmDeletion (describe : Nat → Except ClientError (Option String)) (call : Call)
    (still waitText : String) (budget : Nat) (log : List Event) : Option GoError × List Event :=
  let (err, log) := resource.retryLoop (confirmPoll describe call still) budget none log
  let (err, log) :=
    if isResourceTimeoutError err then
      (errOf (describe log.length), log ++ [Event.mk call (errOf (describe log.length))])
    else (err, log)
  match err with
  | some err => (some (fmt.Errorf (waitText ++ err.Error)), log)
  | none => (none, log)

/-- The events of the Describe calls number `t`, ..., `t + k - 1` of a trace. -/
def describeEvents (describe : Nat → Except ClientError (Option String)) (call : Call)
    (t k : Nat) : List Event :=
  (List.range k).map fun j => Event.mk call (errOf (describe (t + j)))

/-- The error or the state that the Describe call number `t` on the input `id` yields. -/
def inputState (conn : MediaLive) (id : String) (t : Nat) : Except ClientError (Option String) :=
  (conn.describeInput t { InputId := some id }).map (·.State)

/-- The error or the state that the Describe call number `t` on the security group
`id` yields. -/
def securityGroupState (conn : MediaLive) (id : String) (t : Nat) :
    Except ClientError (Option String) :=
  (conn.describeInputSecurityGroup t { InputSecurityGroupId := some id }).map (·.State)

/-- A service on which every call succeeds; an entity is described in state DELETING
by the calls up to number `n` and is not found by the later ones. -/
def vanishingService (n : Nat) : MediaLive where
  createInput _ _ := .ok { Id := some "1234567" }
  describeInput t input :=
    if t ≤ n then .ok { Id := input.InputId, State := some "DELETING" }
    else .error (ClientError.aws "NotFoundException" "input not found")
  updateInput _ _ := none
  deleteInput _ _ := none
  createInputSecurityGroup _ _ := .ok { Id := some "7654321" }
  describeInputSecurityGroup t input :=
    if t ≤ n then .ok { Id := input.InputSecurityGroupId, State := some "DELETING" }
    else .error (ClientError.aws "NotFoundException" "security group not found")
  updateInputSecurityGroup _ _ := none
  deleteInputSecurityGroup _ _ := none
  updateTags _ _ _ _ := none

/-- A service whose delete calls fail with the given error. -/
def refusingService (err : ClientError) : MediaLive where
  createInput _ _ := .ok { Id := some "1234567" }
  describeInput _ input := .ok { Id := input.InputId, State := some "DETACHED" }
  updateInput _ _ := none
  deleteInput _ _ := some err
  createInputSecurityGroup _ _ := .ok { Id := some "7654321" }
  describeInputSecurityGroup _ input := .ok { Id := input.InputSecurityGroupId, State := some "IDLE" }
  updateInputSecurityGroup _ _ := none
  deleteInputSecurityGroup _ _ := some err
  updateTags _ _ _ _ := none

/-- Every failed call of a trace is its last call. -/
def failuresLast : List Event → Bool
  | [] => true
  | ev :: rest => (ev.err.isNone || rest.isEmpty) && failuresLast rest

/-- Some call of a trace failed. -/
def anyFailure (evs : List Event) : Bool :=
  evs.any fun ev => ev.err.isSome

/-- The trace that an operation adds is well formed: a failed call is the last call,
and a failed call makes the operation fail. -/
def TraceOk (log : List Event) (err : Option GoError) (log' : List Event) : Prop :=
  ∃ evs, log' = log ++ evs ∧ failuresLast evs = true ∧ (anyFailure evs = true → err ≠ none)

/-- One stage of an Update function: a step that may call the service, the return
with the wrapped error when the step fails, and the rest of the function otherwise. -/
def updateStage {D : Type} (step : List Event → Option ClientError × List Event)
    (wrap : ClientError → GoError) (d : D)
    (rest : List Event → Option GoError × D × List Event) (log : List Event) :
    Option GoError × D × List Event :=
  let (err, log) := step log
  match err with
  | some err => (some (wrap err), d, log)
  | none => rest log

/-- The stage of an Update function that updates the tags. -/
def tagStage {D : Type} (step : List Event → Option GoError × List Event)
    (wrap : GoError → GoError) (d : D)
    (rest : List Event → Option GoError × D × List Event) (log : List Event) :
    Option GoError × D × List Event :=
  let (err, log) := step log
  match err with
  | some err => (some (wrap err), d, log)
  | none => rest log

/-- A step makes no call and succeeds, or makes one call and fails exactly when the
call does. -/
def StepOk {E : Type} (step : List Event → Option E × List Event) : Prop :=
  ∀ log, step log = (none, log) ∨
    ∃ ev, (step log).2 = log ++ [ev] ∧ (ev.err = none ↔ (step log).1 = none)

/-- An input whose tags alone differ between the prior state and the configuration. -/
def retaggedInput : ResourceData InputAttrs :=
  { id := "42"
    state := { arn := "arn:aws:medialive:us-east-1:123456789012:input:42", name := "live",
               type_ := "RTMP_PUSH", tags := [("test", "tf_acceptance")] }
    attrs := { arn := "arn:aws:medialive:us-east-1:123456789012:input:42", name := "live",
               type_ := "RTMP_PUSH", tags := [("test", "tf_acceptance"), ("team", "video")] } }

/-- A security group whose tags alone differ between the prior state and the
configuration. -/
def retaggedSecurityGroup : ResourceData InputSecurityGroupAttrs :=
  { id := "77"
    state := { arn := "arn:aws:medialive:us-east-1:123456789012:inputSecurityGroup:77",
               ipv4_whitelist := ["192.168.0.1/32"], tags := [("test", "tf_acceptance")] }
    attrs := { arn := "arn:aws:medialive:us-east-1:123456789012:inputSecurityGroup:77",
               ipv4_whitelist := ["192.168.0.1/32"], tags := [] } }

/-- An input whose destinations and security groups differ between the prior state
and the configuration, and whose name and tags do not. -/
def rewiredInput : ResourceData InputAttrs :=
  { id := "42"
    state := { arn := "arn:aws:medialive:us-east-1:123456789012:input:42", name := "live",
               type_ := "RTMP_PUSH", destinations := [{ endpoint := "test" }],
               input_security_groups := ["77"] }
    attrs := { arn := "arn:aws:medialive:us-east-1:123456789012:input:42", name := "live",
               type_ := "RTMP_PUSH", destinations := [{ endpoint := "main" }],
               input_security_groups := ["78"] } }

/-- A service whose update calls and tag updates fail with the given error. -/
def rejectingService (err : ClientError) : MediaLive where
  createInput _ _ := .ok { Id := some "1234567" }
  describeInput _ input := .ok { Id := input.InputId, State := some "DETACHED" }
  updateInput _ _ := some err
  deleteInput _ _ := none
  createInputSecurityGroup _ _ := .ok { Id := some "7654321" }
  describeInputSecurityGroup _ input := .ok { Id := input.InputSecurityGroupId, State := some "IDLE" }
  updateInputSecurityGroup _ _ := some err
  deleteInputSecurityGroup _ _ := none
  updateTags _ _ _ _ := some (GoError.client err)

/-! ## Dynamic values, Create and validation -/

/-- A run-time panic of Go: a failed type assertion `x.(T)`, with the dynamic type of
`x` and the asserted type, or an index out of range. -/
inductive GoPanic where
  | interfaceConversion (dynamicType assertedType : String)
  | indexOutOfRange
deriving DecidableEq, Repr

/-- A value of type `interface{}` as `d.Get` hands it over: nil, a string, a
`[]interface{}` (attributes of TypeList), a `*schema.Set` (attributes of TypeSet, by
its listing) or a `map[string]interface{}` (a nested block). -/
inductive GoValue where
  | nil
  | string (s : String)
  | slice (l : List GoValue)
  | set (l : List GoValue)
  | map (m : List (String × GoValue))

namespace GoValue

/-- The name of the dynamic type, as a failed assertion reports it. -/
def typeName : GoValue → String
  | .nil => "nil"
  | .string _ => "string"
  | .slice _ => "[]interface {}"
  | .set _ => "*schema.Set"
  | .map _ => "map[string]interface {}"

/-- The type assertion `v.([]interface{})`. -/
def assertSlice : GoValue → Except GoPanic (List GoValue)
  | .slice l => .ok l
  | v => .error (GoPanic.interfaceConversion v.typeName "[]interface {}")

/-- The type assertion `v.(*schema.Set)` followed by `.List()`. -/
def assertSetList : GoValue → Except GoPanic (List GoValue)
  | .set l => .ok l
  | v => .error (GoPanic.interfaceConversion v.typeName "*schema.Set")

/-- The type assertion `v.(map[string]interface{})`. -/
def assertMap : GoValue → Except GoPanic (List (String × GoValue))
  | .map m => .ok m
  | v => .error (GoPanic.interfaceConversion v.typeName "map[string]interface {}")

/-- The strings among a list of values, which is what a conversion of a
`[]interface{}` of strings reads. -/
def strings (l : List GoValue) : List String :=
  l.filterMap fun v =>
    match v with
    | .string s => some s
    | _ => none

end GoValue

/-- The map index `m[key]`: the zero value nil when the key is absent. -/
def mapIndex (m : List (String × GoValue)) (key : String) : GoValue :=
  match m.find? (fun kv => kv.1 == key) with
  | some kv => kv.2
  | none => GoValue.nil

/-- The slice index `v[i]`. -/
def sliceIndex (v : List GoValue) (i : Nat) : Except GoPanic GoValue :=
  match v.get? i with
  | some x => .ok x
  | none => .error GoPanic.indexOutOfRange

/-- The value of one block `vpc` as the schema types it: both keys are of TypeSet. -/
def VpcAttrs.toValue (v : VpcAttrs) : GoValue :=
  GoValue.map
    [("security_group_ids", GoValue.set (v.security_group_ids.map GoValue.string)),
     ("subnet_ids", GoValue.set (v.subnet_ids.map GoValue.string))]

/-- The value of the attribute `vpc` as the schema types it: a TypeList of blocks. -/
def vpcValue (vs : List VpcAttrs) : GoValue :=
  GoValue.slice (vs.map VpcAttrs.toValue)

/-- The value of a list or set attribute and whether it is set to a non-zero value
(`d.GetOk`). -/
def ResourceData.GetOk {A α : Type} (d : ResourceData A) (key : A → List α) : List α × Bool :=
  (key d.attrs, !(key d.attrs).isEmpty)

def expandInputVpcRequest (h : Helpers) (v : List GoValue) :
    Except GoPanic medialive.InputVpcRequest := do
  let vpc ← (← sliceIndex v 0).assertMap
  let subnetIds ← (mapIndex vpc "subnet_ids").assertSlice
  let req : medialive.InputVpcRequest := { SubnetIds := h.expandStringList (GoValue.strings subnetIds) }
  let misspelled ← (mapIndex vpc "securitygroup_ids").assertSlice
  if misspelled.length ≠ 0 then
    let securityGroupIds ← (mapIndex vpc "security_group_ids").assertSlice
    pure { req with SecurityGroupIds := h.expandStringList (GoValue.strings securityGroupIds) }
  else
    pure req

def resourceAwsMediaLiveInputCreate (h : Helpers) (d : ResourceData InputAttrs) (meta : AWSClient)
    (log : List Event) :
    Except GoPanic (Option GoError × ResourceData InputAttrs × List Event) :=
  let conn := meta.medialiveconn
  let input : medialive.CreateInputInput :=
    { Name := some (d.Get (·.name)), Type_ := some (d.Get (·.type_)) }
  let (v, ok) := d.GetOk (·.destinations)
  -- destinations is of TypeSet: the assertion `v.(*schema.Set)` holds
  let input := if ok then { input with Destinations := expandInputDestinationRequest v } else input
  let (v, ok) := d.GetOk (·.input_security_groups)
  -- input_security_groups is of TypeSet: the assertion `v.(*schema.Set)` holds
  let input := if ok then { input with InputSecurityGroups := h.expandStringList v } else input
  let (v, ok) := d.GetOk (·.vpc)
  let vpc : Except GoPanic medialive.CreateInputInput :=
    if ok then
      match (vpcValue v).assertSetList with
      | .error p => .error p
      | .ok l =>
        match expandInputVpcRequest h l with
        | .error p => .error p
        | .ok req => .ok { input with Vpc := some req }
    else .ok input
  match vpc with
  | .error p => .error p
  | .ok input =>
    let v := d.Get (·.tags)
    let input := if v.length > 0 then { input with Tags := h.createTags v } else input
    match conn.CreateInput input log with
    | (.error err, log) =>
      .ok (some (fmt.Errorf ("error creating MediaLive Input: " ++ err.Error)), d, log)
    | (.ok resp, log) =>
      let d := d.SetId (aws.StringValue resp.Id)
      .ok (resourceAwsMediaLiveInputRead h d meta log)

def resourceAwsMediaLiveInputSecurityGroupCreate (h : Helpers)
    (d : ResourceData InputSecurityGroupAttrs) (meta : AWSClient) (log : List Event) :
    Option GoError × ResourceData InputSecurityGroupAttrs × List Event :=
  let conn := meta.medialiveconn
  let input : medialive.CreateInputSecurityGroupInput :=
    { WhitelistRules := expandIPv4Whitelist (d.Get (·.ipv4_whitelist)) }
  let v := d.Get (·.tags)
  let input := if v.length > 0 then { input with Tags := h.createTags v } else input
  match conn.CreateInputSecurityGroup input log with
  | (.error err, log) =>
    (some (fmt.Errorf ("error creating MediaLive Input Security Group: " ++ err.Error)), d, log)
  | (.ok resp, log) =>
    let d := d.SetId (aws.StringValue resp.Id)
    resourceAwsMediaLiveInputSecurityGroupRead h d meta log

/-! ### aws_media_live_channel

The four functions of the channel resource read and write no attribute and make no
call, so the record of the channel attributes is a parameter. -/

def resourceAwsMediaLiveChannelRead {A : Type} (d : ResourceData A) (_meta : AWSClient)
    (log : List Event) : Option GoError × ResourceData A × List Event :=
  (none, d, log)

def resourceAwsMediaLiveChannelCreate {A : Type} (d : ResourceData A) (meta : AWSClient)
    (log : List Event) : Option GoError × ResourceData A × List Event :=
  -- log.Printf("[WARN] creating channel") writes to the process log only
  resourceAwsMediaLiveChannelRead d meta log

def resourceAwsMediaLiveChannelUpdate {A : Type} (d : ResourceData A) (meta : AWSClient)
    (log : List Event) : Option GoError × ResourceData A × List Event :=
  resourceAwsMediaLiveChannelRead d meta log

def resourceAwsMediaLiveChannelDelete {A : Type} (_d : ResourceData A) (_meta : AWSClient)
    (log : List Event) : Option GoError × List Event :=
  (none, log)

namespace validation

/-- The validation function that `validation.StringInSlice(valid, ignoreCase)` of the
plugin SDK returns, applied to a string value `v` of the attribute `k`: no error when
`v` is one of the valid strings (up to case when `ignoreCase` is set), one error
otherwise. -/
def StringInSlice (valid : List String) (ignoreCase : Bool) (v k : String) : List GoError :=
  if valid.any (fun str => v == str || (ignoreCase && v.toLower == str.toLower)) then []
  else
    [fmt.Errorf ("expected " ++ k ++ " to be one of [" ++ " ".intercalate valid ++ "], got " ++ v)]

end validation

/-- The `ValidateFunc` of the attribute `type` in the schema of the input resource. -/
def inputTypeValidateFunc (v k : String) : List GoError :=
  validation.StringInSlice validAwsMediaLiveInputTypes false v k

/-- An input with a VPC block, as in a configuration with two subnets and a security
group. -/
def vpcInput : ResourceData InputAttrs :=
  { id := ""
    state := {}
    attrs := { name := "live", type_ := "RTMP_PUSH",
               vpc := [{ security_group_ids := ["sg-1"], subnet_ids := ["subnet-1", "subnet-2"] }] } }

/-- The input of the acceptance test before it is created. -/
def newInput : ResourceData InputAttrs :=
  { id := ""
    state := {}
    attrs := { name := "live", type_ := "RTMP_PUSH", destinations := [{ endpoint := "test" }],
               input_security_groups := ["77"], tags := [("test", "tf_acceptance")] } }

/-- A service that describes a security group with the given whitelist rules. -/
def whitelistService (rules : List medialive.InputWhitelistRule) : MediaLive where
  createInput _ _ := .ok { Id := some "1234567" }
  describeInput _ input := .ok { Id := input.InputId, State := some "DETACHED" }
  updateInput _ _ := none
  deleteInput _ _ := none
  createInputSecurityGroup _ _ := .ok { Id := some "7654321" }
  describeInputSecurityGroup _ input :=
    .ok { Id := input.InputSecurityGroupId, State := some "IDLE", WhitelistRules := rules }
  updateInputSecurityGroup _ _ := none
  deleteInputSecurityGroup _ _ := none
  updateTags _ _ _ _ := none

/-- The request that Create of an input builds when no VPC block is supplied: name and
type always, each optional attribute only when it is supplied. -/
def createInputRequestOf (h : Helpers) (d : ResourceData InputAttrs) : medialive.CreateInputInput :=
  { Name := some d.attrs.name
    Type_ := some d.attrs.type_
    Destinations :=
      if d.attrs.destinations = [] then [] else expandInputDestinationRequest d.attrs.destinations
    InputSecurityGroups :=
      if d.attrs.input_security_groups = [] then []
      else h.expandStringList d.attrs.input_security_groups
    Tags := if d.attrs.tags = [] then [] else h.createTags d.attrs.tags
    Vpc := none }

/-- The request that Create of an input security group builds. -/
def createInputSecurityGroupRequestOf (h : Helpers) (d : ResourceData InputSecurityGroupAttrs) :
    medialive.CreateInputSecurityGroupInput :=
  { WhitelistRules := expandIPv4Whitelist d.attrs.ipv4_whitelist
    Tags := if d.attrs.tags = [] then [] else h.createTags d.attrs.tags }

/-- A service whose create calls fail with the given error. -/
def closedService (err : ClientError) : MediaLive where
  createInput _ _ := .error err
  describeInput _ input := .ok { Id := input.InputId, State := some "DETACHED" }
  updateInput _ _ := none
  deleteInput _ _ := none
  createInputSecurityGroup _ _ := .error err
  describeInputSecurityGroup _ input := .ok { Id := input.InputSecurityGroupId, State := some "IDLE" }
  updateInputSecurityGroup _ _ := none
  deleteInputSecurityGroup _ _ := none
  updateTags _ _ _ _ := none

/-- The security group of the acceptance test before it is created. -/
def newSecurityGroup : ResourceData InputSecurityGroupAttrs :=
  { id := "", state := {}, attrs := { ipv4_whitelist := ["192.168.0.1/32"] } }

/-- A service that describes the input of the acceptance test. -/
def describingService : MediaLive where
  createInput _ _ := .ok { Id := some "1234567" }
  describeInput _ input :=
    .ok { Id := input.InputId, State := some "DETACHED",
          Arn := some "arn:aws:medialive:us-east-1:123456789012:input:1234567",
          InputClass := some "STANDARD", Name := some "live",
          Destinations := [{ Ip := some "10.0.0.1", Port := some "1935",
                             Url := some "rtmp://10.0.0.1:1935/test" }],
          Tags := [("test", "tf_acceptance")] }
  updateInput _ _ := none
  deleteInput _ _ := none
  createInputSecurityGroup _ _ := .ok { Id := some "7654321" }
  describeInputSecurityGroup _ input := .ok { Id := input.InputSecurityGroupId, State := some "IDLE" }
  updateInputSecurityGroup _ _ := none
  deleteInputSecurityGroup _ _ := none
  updateTags _ _ _ _ := none

/-- An input whose destinations alone differ between the prior state and the
configuration. -/
def redirectedInput : ResourceData InputAttrs :=
  { id := "42"
    state := { name := "live", type_ := "RTMP_PUSH", destinations := [{ endpoint := "test" }] }
    attrs := { name := "live", type_ := "RTMP_PUSH", destinations := [{ endpoint := "main" }] } }

/-- An input whose name alone differs between the prior state and the configuration. -/
def renamedInput : ResourceData InputAttrs :=
  { id := "42"
    state := { name := "live", type_ := "RTMP_PUSH", destinations := [{ endpoint := "test" }] }
    attrs := { name := "show", type_ := "RTMP_PUSH", destinations := [{ endpoint := "test" }] } }

/-- If the event is a failed `UpdateInput` call, the error of the operation is the text
`error updating MediaLive Input: ` followed by the text of the remote error. -/
def BlamesUpdate (ev : Event) (err : Option GoError) : Prop :=
  ∀ req e, ev = Event.mk (Call.UpdateInput req) (some (GoError.client e)) →
    err = some (fmt.Errorf ("error updating MediaLive Input: " ++ e.Error))

/-- Every failed `UpdateInput` call of the trace that an operation adds is reported
with the one text of `BlamesUpdate`. -/
def MessageOk (log : List Event) (err : Option GoError) (log' : List Event) : Prop :=
  ∃ evs, log' = log ++ evs ∧ ∀ ev ∈ evs, BlamesUpdate ev err

/-- A step makes no call and succeeds, or makes one call whose failure is reported as
`BlamesUpdate` says. -/
def StepBlames {E : Type} (step : List Event → Option E × List Event) (wrap : E → GoError) :
    Prop :=
  ∀ log, step log = (none, log) ∨
    ∃ ev, (step log).2 = log ++ [ev] ∧ ((step log).1 = none → ev.err = none)
      ∧ ∀ e, (step log).1 = some e → BlamesUpdate ev (some (wrap e))

/-! ## Splitting -/

namespace strings

theorem splitChars_ne_nil (sep : Char) (s : List Char) : splitChars sep s ≠ [] := by
  induction s with
  | nil => simp [splitChars]
  | cons c cs ih =>
    unfold splitChars
    split
    · simp
    · split <;> simp

theorem splitChars_of_not_mem (sep : Char) (a : List Char) (h : sep ∉ a) :
    splitChars sep a = [a] := by
  induction a with
  | nil => rfl
  | cons c cs ih =>
    have hc : c ≠ sep := fun e => h (by simp [e])
    have hcs : sep ∉ cs := fun e => h (by simp [e])
    simp [splitChars, hc, ih hcs]

theorem splitChars_append_sep (sep : Char) (a rest : List Char) (h : sep ∉ a) :
    splitChars sep (a ++ sep :: rest) = a :: splitChars sep rest := by
  induction a with
  | nil => simp [splitChars]
  | cons c cs ih =>
    have hc : c ≠ sep := fun e => h (by simp [e])
    have hcs : sep ∉ cs := fun e => h (by simp [e])
    simp [splitChars, hc, ih hcs]

theorem splitChars_not_mem (sep : Char) (s : List Char) :
    ∀ p ∈ splitChars sep s, sep ∉ p := by
  induction s with
  | nil => simp [splitChars]
  | cons c cs ih =>
    unfold splitChars
    split
    · intro p hp
      rcases List.mem_cons.mp hp with rfl | hp
      · simp
      · exact ih p hp
    · rename_i hc
      split
      · simp [Ne.symm hc]
      · rename_i q qs hq
        intro p hp
        rcases List.mem_cons.mp hp with rfl | hp
        · have := ih q (by simp [hq])
          simp [this, Ne.symm hc]
        · exact ih p (by simp [hq, hp])

end strings

theorem endpointFromURL_eq_get (u : Option String) :
    endpointFromURL u = ((strings.Split (aws.StringValue u) '/').get? 3).getD "" := by
  unfold endpointFromURL
  simp only
  split
  · rename_i h
    rw [List.get?_eq_none.mpr (by omega)]
    rfl
  · rename_i h
    rw [List.get?_eq_get (by omega)]
    rfl

theorem split_url (scheme host path : String) (hs : '/' ∉ scheme.toList)
    (hh : '/' ∉ host.toList) :
    strings.Split (scheme ++ "://" ++ host ++ "/" ++ path) '/'
      = (scheme ++ ":") :: "" :: host :: strings.Split path '/' := by
  have h1 : (scheme ++ "://" ++ host ++ "/" ++ path).data
      = (scheme.data ++ [':']) ++ '/' :: ([] ++ '/' :: (host.data ++ '/' :: path.data)) := by
    simp [String.data_append]
  have hs1 : '/' ∉ scheme.data ++ [':'] := by
    simp only [List.mem_append, List.mem_singleton, not_or]
    exact ⟨hs, by decide⟩
  unfold strings.Split
  rw [h1, strings.splitChars_append_sep _ _ _ hs1,
    strings.splitChars_append_sep _ _ _ (List.not_mem_nil _),
    strings.splitChars_append_sep _ host.data _ hh]
  simp only [List.map_cons]
  rfl

theorem foldl_append_singleton {α β : Type} (f : α → β) (l : List α) (init : List β) :
    l.foldl (fun acc x => acc ++ [f x]) init = init ++ l.map f := by
  induction l generalizing init with
  | nil => simp
  | cons x xs ih => simp [ih]

theorem expandInputDestinationRequest_eq_map (v : List DestinationAttrs) :
    expandInputDestinationRequest v
      = v.map fun dest => ({ StreamName := some dest.endpoint } : medialive.InputDestinationRequest) := by
  unfold expandInputDestinationRequest
  rw [foldl_append_singleton]
  rfl

theorem flattenInputDestinations_eq_map (is : List medialive.InputDestination) :
    flattenInputDestinations is = is.map flattenOne := by
  unfold flattenInputDestinations
  have : (fun (out : List FlatDestination) (i : medialive.InputDestination) =>
      let destination : FlatDestination :=
        { endpoint := endpointFromURL i.Url, ip := i.Ip, port := i.Port, url := i.Url }
      let destination :=
        match i.Vpc with
        | some vpc =>
          { destination with
            vpc := some { AvailabilityZone := vpc.AvailabilityZone,
                          NetworkInterfaceId := vpc.NetworkInterfaceId } }
        | none => destination
      out ++ [destination]) = fun out i => out ++ [flattenOne i] := by
    funext out i
    cases h : i.Vpc <;> simp [flattenOne, h]
  rw [this, foldl_append_singleton]
  rfl

/-- C5, counterexample: for the URL of the example the decomposed field is not the
stream key; the segment at index 3 is the application name. -/
theorem endpointFromURL_example_is_not_streamkey :
    endpointFromURL (some "scheme://host/app/streamkey") ≠ "streamkey"
      ∧ endpointFromURL (some "scheme://host/app/streamkey") = "app" := by
  decide

/-- C5, amended: for every URL of the shape scheme://host/app/key whose parts contain
no slash, `endpointFromURL` returns the first path segment `app`, which is the segment
at index 3 of the split; the key is the segment at index 4 and is not returned. -/
theorem endpointFromURL_app_key (scheme host app key : String)
    (hs : '/' ∉ scheme.toList) (hh : '/' ∉ host.toList) (ha : '/' ∉ app.toList) :
    endpointFromURL (some (scheme ++ "://" ++ host ++ "/" ++ app ++ "/" ++ key)) = app := by
  have e : scheme ++ "://" ++ host ++ "/" ++ app ++ "/" ++ key
      = scheme ++ "://" ++ host ++ "/" ++ (app ++ "/" ++ key) := by
    simp [String.append_assoc]
  have h2 : strings.Split (app ++ "/" ++ key) '/' = app :: strings.Split key '/' := by
    have : (app ++ "/" ++ key).data = app.data ++ '/' :: key.data := by
      simp [String.data_append]
    unfold strings.Split
    rw [this, strings.splitChars_append_sep _ app.data _ ha]
    rfl
  rw [endpointFromURL_eq_get, aws.StringValue, e, split_url _ _ _ hs hh, h2]
  rfl

theorem endpointFromURL_app_key_witness :
    '/' ∉ "scheme".toList ∧ '/' ∉ "host".toList ∧ '/' ∉ "app".toList
      ∧ endpointFromURL (some ("scheme" ++ "://" ++ "host" ++ "/" ++ "app" ++ "/" ++ "streamkey"))
        = "app" :=
  ⟨by decide, by decide, by decide,
    endpointFromURL_app_key "scheme" "host" "app" "streamkey" (by decide) (by decide) (by decide)⟩

/-- C6: `endpointFromURL` equals the reference definition for every input, nil
included (split on the slash; fewer than four segments give the empty string, otherwise
the segment at index 3), and its result never contains a slash. -/
theorem endpointFromURL_eq_reference (u : Option String) :
    endpointFromURL u = endpointReference u ∧ '/' ∉ (endpointFromURL u).toList := by
  have hv : aws.StringValue u = u.getD "" := by cases u <;> rfl
  constructor
  · rw [endpointFromURL_eq_get, hv]
    unfold endpointReference
    rcases strings.Split (u.getD "") '/' with _ | ⟨a, _ | ⟨b, _ | ⟨c, _ | ⟨e, r⟩⟩⟩⟩ <;> rfl
  · rw [endpointFromURL_eq_get]
    cases hg : (strings.Split (aws.StringValue u) '/').get? 3 with
    | none => simp
    | some x =>
      have hx : x ∈ strings.Split (aws.StringValue u) '/' := List.get?_mem hg
      unfold strings.Split at hx
      obtain ⟨p, hp, rfl⟩ := List.mem_map.mp hx
      simpa using strings.splitChars_not_mem '/' _ p hp

theorem split_of_not_mem (e : String) (he : '/' ∉ e.toList) : strings.Split e '/' = [e] := by
  unfold strings.Split
  rw [strings.splitChars_of_not_mem _ e.data he]
  rfl

theorem endpointFromURL_host_name (scheme host e : String) (hs : '/' ∉ scheme.toList)
    (hh : '/' ∉ host.toList) (he : '/' ∉ e.toList) :
    endpointFromURL (some (scheme ++ "://" ++ host ++ "/" ++ e)) = e := by
  rw [endpointFromURL_eq_get, aws.StringValue, split_url _ _ _ hs hh, split_of_not_mem e he]
  rfl

/-- C7: endpoint round trip.  For configured destinations whose endpoints contain no
slash, `expandInputDestinationRequest` sends each endpoint as the StreamName, and if
the service builds each destination URL as scheme://host/StreamName, with a scheme and
a host without slash, then `flattenInputDestinations` reads back the configured
endpoints, in order. -/
theorem endpoint_round_trip (v : List DestinationAttrs)
    (build : medialive.InputDestinationRequest → medialive.InputDestination)
    (hv : ∀ dest ∈ v, '/' ∉ dest.endpoint.toList)
    (hb : ∀ r, ∃ scheme host : String, '/' ∉ scheme.toList ∧ '/' ∉ host.toList ∧
      (build r).Url = some (scheme ++ "://" ++ host ++ "/" ++ aws.StringValue r.StreamName)) :
    (expandInputDestinationRequest v).map (·.StreamName) = v.map (fun dest => some dest.endpoint)
      ∧ (flattenInputDestinations ((expandInputDestinationRequest v).map build)).map (·.endpoint)
        = v.map (·.endpoint) := by
  rw [expandInputDestinationRequest_eq_map, flattenInputDestinations_eq_map]
  refine ⟨by simp, ?_⟩
  simp only [List.map_map]
  apply List.map_congr_left
  intro dest hd
  obtain ⟨scheme, host, hs, hh, hu⟩ := hb { StreamName := some dest.endpoint }
  simp only [Function.comp, flattenOne, hu, aws.StringValue]
  exact endpointFromURL_host_name scheme host dest.endpoint hs hh (hv dest hd)

theorem endpoint_round_trip_witness :
    (flattenInputDestinations
        ((expandInputDestinationRequest [{ endpoint := "test" }]).map
          (rtmpDestination "10.0.0.1:1935"))).map (·.endpoint) = ["test"] :=
  (endpoint_round_trip [{ endpoint := "test" }] (rtmpDestination "10.0.0.1:1935")
    (by decide)
    (fun _ => ⟨"rtmp", "10.0.0.1:1935", by decide, by decide, rfl⟩)).2

/-! ## The delete-confirmation poll, stated once for both resources -/

theorem errOf_map {α β : Type} (f : α → β) (r : Except ClientError α) :
    errOf (r.map f) = errOf r := by
  cases r <;> rfl

theorem resourceAwsMediaLiveInputDelete_eq (h : Helpers) (d : ResourceData InputAttrs)
    (meta : AWSClient) (log : List Event) :
    resourceAwsMediaLiveInputDelete h d meta log =
      match meta.medialiveconn.deleteInput log.length { InputId := some d.Id } with
      | some err =>
        (if isAWSErr err medialive.ErrCodeNotFoundException "" then none
          else some (fmt.Errorf ("error deleting MediaLive Input: " ++ err.Error)),
          log ++ [Event.mk (Call.DeleteInput { InputId := some d.Id }) (some (GoError.client err))])
      | none =>
        confirmDeletion (inputState meta.medialiveconn d.Id)
          (Call.DescribeInput { InputId := some d.Id })
          ("MediaLive Input (" ++ d.Id ++ ") still exists")
          ("error waiting for MediaLive Input (" ++ d.Id ++ ") deletion: ")
          (h.attempts 30)
          (log ++ [Event.mk (Call.DeleteInput { InputId := some d.Id }) none]) := by
  unfold resourceAwsMediaLiveInputDelete
  simp only [MediaLive.DeleteInput]
  cases hdel : meta.medialiveconn.deleteInput log.length { InputId := some d.Id } with
  | some err =>
    simp only [Option.map]
    split <;> rfl
  | none =>
    have hpoll : (fun log =>
          match meta.medialiveconn.DescribeInput { InputId := some d.Id } log with
          | (.error err, log) =>
            if isAWSErr err medialive.ErrCodeNotFoundException "" then (none, log)
            else (some (resource.NonRetryableError (GoError.client err)), log)
          | (.ok resp, log) =>
            if aws.StringValue resp.State = "DELETED" then (none, log)
            else
              (some (resource.RetryableError
                (fmt.Errorf ("MediaLive Input (" ++ d.Id ++ ") still exists"))), log))
        = confirmPoll
          (fun t => (meta.medialiveconn.describeInput t { InputId := some d.Id }).map (·.State))
          (Call.DescribeInput { InputId := some d.Id })
          ("MediaLive Input (" ++ d.Id ++ ") still exists") := by
      funext log
      simp only [MediaLive.DescribeInput, confirmPoll]
      cases meta.medialiveconn.describeInput log.length { InputId := some d.Id } <;> rfl
    have hs : inputState meta.medialiveconn d.Id
        = fun t => (meta.medialiveconn.describeInput t { InputId := some d.Id }).map (·.State) :=
      rfl
    simp only [resource.Retry]
    rw [hpoll, hs]
    simp only [confirmDeletion, MediaLive.DescribeInput, errOf_map]
    rfl

theorem resourceAwsMediaLiveInputSecurityGroupDelete_eq (h : Helpers) (d : ResourceData InputSecurityGroupAttrs)
    (meta : AWSClient) (log : List Event) :
    resourceAwsMediaLiveInputSecurityGroupDelete h d meta log =
      match meta.medialiveconn.deleteInputSecurityGroup log.length { InputSecurityGroupId := some d.Id } with
      | some err =>
        (if isAWSErr err medialive.ErrCodeNotFoundException "" then none
          else some (fmt.Errorf ("error deleting MediaLive Input Security Group: " ++ err.Error)),
          log ++ [Event.mk (Call.DeleteInputSecurityGroup { InputSecurityGroupId := some d.Id }) (some (GoError.client err))])
      | none =>
        confirmDeletion (securityGroupState meta.medialiveconn d.Id)
          (Call.DescribeInputSecurityGroup { InputSecurityGroupId := some d.Id })
          ("MediaLive Input Security Group (" ++ d.Id ++ ") still exists")
          ("error waiting for MediaLive Input Security Group (" ++ d.Id ++ ") deletion: ")
          (h.attempts (5 * 60))
          (log ++ [Event.mk (Call.DeleteInputSecurityGroup { InputSecurityGroupId := some d.Id }) none]) := by
  unfold resourceAwsMediaLiveInputSecurityGroupDelete
  simp only [MediaLive.DeleteInputSecurityGroup]
  cases hdel : meta.medialiveconn.deleteInputSecurityGroup log.length { InputSecurityGroupId := some d.Id } with
  | some err =>
    simp only [Option.map]
    split <;> rfl
  | none =>
    have hpoll : (fun log =>
          match meta.medialiveconn.DescribeInputSecurityGroup { InputSecurityGroupId := some d.Id } log with
          | (.error err, log) =>
            if isAWSErr err medialive.ErrCodeNotFoundException "" then (none, log)
            else (some (resource.NonRetryableError (GoError.client err)), log)
          | (.ok resp, log) =>
            if aws.StringValue resp.State = "DELETED" then (none, log)
            else
              (some (resource.RetryableError
                (fmt.Errorf ("MediaLive Input Security Group (" ++ d.Id ++ ") still exists"))), log))
        = confirmPoll
          (fun t => (meta.medialiveconn.describeInputSecurityGroup t { InputSecurityGroupId := some d.Id }).map (·.State))
          (Call.DescribeInputSecurityGroup { InputSecurityGroupId := some d.Id })
          ("MediaLive Input Security Group (" ++ d.Id ++ ") still exists") := by
      funext log
      simp only [MediaLive.DescribeInputSecurityGroup, confirmPoll]
      cases meta.medialiveconn.describeInputSecurityGroup log.length { InputSecurityGroupId := some d.Id } <;> rfl
    have hs : securityGroupState meta.medialiveconn d.Id
        = fun t => (meta.medialiveconn.describeInputSecurityGroup t
            { InputSecurityGroupId := some d.Id }).map (·.State) :=
      rfl
    simp only [resource.Retry]
    rw [hpoll, hs]
    simp only [confirmDeletion, MediaLive.DescribeInputSecurityGroup, errOf_map]
    rfl

theorem stringValue_eq_deleted (state : Option String) :
    aws.StringValue state = "DELETED" ↔ state = some "DELETED" := by
  cases state with
  | none => simp [aws.StringValue]
  | some s => simp [aws.StringValue]

theorem confirmPoll_retryable (describe : Nat → Except ClientError (Option String)) (call : Call)
    (still : String) (log : List Event) (hc : pollClass (describe log.length) = .retryable) :
    confirmPoll describe call still log
      = (some (resource.RetryableError (fmt.Errorf still)),
          log ++ [Event.mk call (errOf (describe log.length))]) := by
  unfold confirmPoll
  cases hr : describe log.length with
  | error err =>
    rw [hr] at hc
    simp only [pollClass] at hc
    split at hc <;> simp at hc
  | ok state =>
    rw [hr] at hc
    simp only [pollClass] at hc
    have : ¬ aws.StringValue state = "DELETED" := by
      rw [stringValue_eq_deleted]
      intro e
      simp [e] at hc
    simp [this]

theorem confirmPoll_done (describe : Nat → Except ClientError (Option String)) (call : Call)
    (still : String) (log : List Event) (hc : pollClass (describe log.length) = .done) :
    confirmPoll describe call still log
      = (none, log ++ [Event.mk call (errOf (describe log.length))]) := by
  unfold confirmPoll
  cases hr : describe log.length with
  | error err =>
    rw [hr] at hc
    simp only [pollClass] at hc
    have : isAWSErr err medialive.ErrCodeNotFoundException "" = true := by
      by_contra hn
      simp [hn] at hc
    simp [this]
  | ok state =>
    rw [hr] at hc
    simp only [pollClass] at hc
    have : aws.StringValue state = "DELETED" := by
      rw [stringValue_eq_deleted]
      by_contra hn
      simp [hn] at hc
    simp [this]

theorem confirmPoll_nonRetryable (describe : Nat → Except ClientError (Option String))
    (call : Call) (still : String) (log : List Event)
    (hc : pollClass (describe log.length) = .nonRetryable) :
    ∃ err, describe log.length = .error err ∧
      confirmPoll describe call still log
        = (some (resource.NonRetryableError (GoError.client err)),
            log ++ [Event.mk call (some (GoError.client err))]) := by
  unfold confirmPoll
  cases hr : describe log.length with
  | error err =>
    rw [hr] at hc
    simp only [pollClass] at hc
    have : ¬ isAWSErr err medialive.ErrCodeNotFoundException "" = true := by
      intro hn
      simp [hn] at hc
    exact ⟨err, rfl, by simp [this, errOf]⟩
  | ok state =>
    rw [hr] at hc
    simp only [pollClass] at hc
    split at hc <;> simp at hc

theorem describeEvents_succ (describe : Nat → Except ClientError (Option String)) (call : Call)
    (t k : Nat) :
    describeEvents describe call t (k + 1)
      = Event.mk call (errOf (describe t)) :: describeEvents describe call (t + 1) k := by
  unfold describeEvents
  rw [List.range_succ_eq_map]
  simp [Function.comp, Nat.add_assoc, Nat.add_comm 1]

theorem describeEvents_succ_last (describe : Nat → Except ClientError (Option String))
    (call : Call) (t k : Nat) :
    describeEvents describe call t (k + 1)
      = describeEvents describe call t k ++ [Event.mk call (errOf (describe (t + k)))] := by
  unfold describeEvents
  rw [List.range_succ]
  simp

theorem length_describeEvents (describe : Nat → Except ClientError (Option String))
    (call : Call) (t k : Nat) : (describeEvents describe call t k).length = k := by
  simp [describeEvents]

/-- While the attempts are retryable the poll goes on: `k` retryable attempts use up
`k` of the budget, log `k` Describe calls and leave the error of the last of them as
the error to return when the budget runs out. -/
theorem retryLoop_confirmPoll_retryable (describe : Nat → Except ClientError (Option String))
    (call : Call) (still : String) (k n : Nat) (resultErr : Option GoError) (log : List Event)
    (hk : ∀ j, j < k → pollClass (describe (log.length + j)) = .retryable) :
    resource.retryLoop (confirmPoll describe call still) (k + n) resultErr log
      = resource.retryLoop (confirmPoll describe call still) n
          (if k = 0 then resultErr else some (fmt.Errorf still))
          (log ++ describeEvents describe call log.length k) := by
  induction k generalizing log resultErr with
  | zero => simp [describeEvents]
  | succ k ih =>
    have h0 := confirmPoll_retryable describe call still log (by simpa using hk 0 (by omega))
    have e : k + 1 + n = (k + n) + 1 := by omega
    rw [e, resource.retryLoop, h0]
    simp only [resource.RetryableError, if_true]
    rw [ih]
    · rw [describeEvents_succ]
      simp
    · intro j hj
      have := hk (j + 1) (by omega)
      simpa [Nat.add_assoc, Nat.add_comm 1] using this

/-- The timeout elapses before any attempt completes: one Describe is made and only its
error decides the result. -/
theorem confirmDeletion_timeout (describe : Nat → Except ClientError (Option String))
    (call : Call) (still waitText : String) (log : List Event) :
    confirmDeletion describe call still waitText 0 log
      = (match describe log.length with
          | .ok _ => none
          | .error err => some (fmt.Errorf (waitText ++ err.Error)),
        log ++ [Event.mk call (errOf (describe log.length))]) := by
  unfold confirmDeletion
  simp only [resource.retryLoop, isResourceTimeoutError, if_true]
  cases describe log.length <;> rfl

/-- The timeout elapses after attempts that were all retryable: the error of the last
attempt is returned, wrapped, and no further Describe is made. -/
theorem confirmDeletion_exhausted (describe : Nat → Except ClientError (Option String))
    (call : Call) (still waitText : String) (budget : Nat) (log : List Event)
    (hb : 0 < budget)
    (hk : ∀ j, j < budget → pollClass (describe (log.length + j)) = .retryable) :
    confirmDeletion describe call still waitText budget log
      = (some (fmt.Errorf (waitText ++ still)),
        log ++ describeEvents describe call log.length budget) := by
  have hloop := retryLoop_confirmPoll_retryable describe call still budget 0 none log hk
  have hne : budget ≠ 0 := by omega
  simp only [Nat.add_zero, resource.retryLoop, hne, if_false] at hloop
  unfold confirmDeletion
  rw [hloop]
  rfl

/-- The poll stops at the first attempt that is not retryable, when that attempt is
within the budget. -/
theorem confirmDeletion_stop (describe : Nat → Except ClientError (Option String))
    (call : Call) (still waitText : String) (budget k : Nat) (log : List Event)
    (hkb : k < budget)
    (hk : ∀ j, j < k → pollClass (describe (log.length + j)) = .retryable)
    (hstop : pollClass (describe (log.length + k)) ≠ .retryable) :
    confirmDeletion describe call still waitText budget log
      = (match describe (log.length + k) with
          | .ok _ => none
          | .error err =>
            if isAWSErr err medialive.ErrCodeNotFoundException "" then none
            else some (fmt.Errorf (waitText ++ err.Error)),
        log ++ describeEvents describe call log.length (k + 1)) := by
  obtain ⟨n, rfl⟩ : ∃ n, budget = k + (n + 1) := ⟨budget - k - 1, by omega⟩
  have hloop := retryLoop_confirmPoll_retryable describe call still k (n + 1) none log hk
  have hlen : (log ++ describeEvents describe call log.length k).length = log.length + k := by
    simp [length_describeEvents]
  unfold confirmDeletion
  rw [hloop, resource.retryLoop, describeEvents_succ_last, ← List.append_assoc]
  cases hc : pollClass (describe (log.length + k)) with
  | retryable => exact absurd hc hstop
  | done =>
    rw [confirmPoll_done describe call still _ (by rw [hlen]; exact hc), hlen]
    simp only [isResourceTimeoutError]
    cases hr : describe (log.length + k) with
    | ok s => simp
    | error err =>
      have : isAWSErr err medialive.ErrCodeNotFoundException "" = true := by
        rw [hr] at hc
        by_contra hn
        simp [pollClass, hn] at hc
      simp [this]
  | nonRetryable =>
    obtain ⟨err, herr, hp⟩ :=
      confirmPoll_nonRetryable describe call still _ (by rw [hlen]; exact hc)
    rw [hlen] at herr
    rw [hp, herr]
    have : ¬ isAWSErr err medialive.ErrCodeNotFoundException "" = true := by
      rw [herr] at hc
      intro hn
      simp [pollClass, hn] at hc
    simp [resource.NonRetryableError, isResourceTimeoutError, this, errOf, GoError.Error]

theorem isAWSErr_notFound_iff (err : ClientError) :
    isAWSErr err medialive.ErrCodeNotFoundException "" = true
      ↔ ∃ message, err = ClientError.aws "NotFoundException" message := by
  cases err with
  | aws c m => simp [isAWSErr, medialive.ErrCodeNotFoundException]
  | other t => simp [isAWSErr]

/-- The timeout elapses after at least one poll attempt, all attempts having found the
entity present in a state other than DELETED: both Delete functions return the error of
the last attempt, which names the entity type and the ID, the Describe calls are those
of the poll, and no Describe is made after the timeout. -/
theorem delete_poll_exhausted (h : Helpers) (meta : AWSClient) (log : List Event)
    (dI : ResourceData InputAttrs) (dG : ResourceData InputSecurityGroupAttrs) :
    (meta.medialiveconn.deleteInput log.length { InputId := some dI.Id } = none →
      0 < h.attempts 30 →
      (∀ j, j < h.attempts 30 →
        pollClass (inputState meta.medialiveconn dI.Id (log.length + 1 + j)) = .retryable) →
      resourceAwsMediaLiveInputDelete h dI meta log
        = (some (fmt.Errorf
              ("error waiting for MediaLive Input (" ++ dI.Id ++ ") deletion: "
                ++ ("MediaLive Input (" ++ dI.Id ++ ") still exists"))),
            log ++ Event.mk (Call.DeleteInput { InputId := some dI.Id }) none ::
              describeEvents (inputState meta.medialiveconn dI.Id)
                (Call.DescribeInput { InputId := some dI.Id }) (log.length + 1)
                (h.attempts 30)))
    ∧ (meta.medialiveconn.deleteInputSecurityGroup log.length
          { InputSecurityGroupId := some dG.Id } = none →
      0 < h.attempts (5 * 60) →
      (∀ j, j < h.attempts (5 * 60) →
        pollClass (securityGroupState meta.medialiveconn dG.Id (log.length + 1 + j))
          = .retryable) →
      resourceAwsMediaLiveInputSecurityGroupDelete h dG meta log
        = (some (fmt.Errorf
              ("error waiting for MediaLive Input Security Group (" ++ dG.Id ++ ") deletion: "
                ++ ("MediaLive Input Security Group (" ++ dG.Id ++ ") still exists"))),
            log ++ Event.mk (Call.DeleteInputSecurityGroup
                { InputSecurityGroupId := some dG.Id }) none ::
              describeEvents (securityGroupState meta.medialiveconn dG.Id)
                (Call.DescribeInputSecurityGroup { InputSecurityGroupId := some dG.Id })
                (log.length + 1) (h.attempts (5 * 60)))) := by
  constructor
  · intro hdel hb hpoll
    rw [resourceAwsMediaLiveInputDelete_eq, hdel]
    have hlen : (log ++ [Event.mk (Call.DeleteInput { InputId := some dI.Id }) none]).length
        = log.length + 1 := by simp
    have := confirmDeletion_exhausted (inputState meta.medialiveconn dI.Id)
      (Call.DescribeInput { InputId := some dI.Id })
      ("MediaLive Input (" ++ dI.Id ++ ") still exists")
      ("error waiting for MediaLive Input (" ++ dI.Id ++ ") deletion: ") (h.attempts 30)
      (log ++ [Event.mk (Call.DeleteInput { InputId := some dI.Id }) none]) hb
      (by intro j hj; rw [hlen]; exact hpoll j hj)
    rw [hlen] at this
    simpa using this
  · intro hdel hb hpoll
    rw [resourceAwsMediaLiveInputSecurityGroupDelete_eq, hdel]
    have hlen : (log ++ [Event.mk (Call.DeleteInputSecurityGroup
        { InputSecurityGroupId := some dG.Id }) none]).length = log.length + 1 := by simp
    have := confirmDeletion_exhausted (securityGroupState meta.medialiveconn dG.Id)
      (Call.DescribeInputSecurityGroup { InputSecurityGroupId := some dG.Id })
      ("MediaLive Input Security Group (" ++ dG.Id ++ ") still exists")
      ("error waiting for MediaLive Input Security Group (" ++ dG.Id ++ ") deletion: ")
      (h.attempts (5 * 60))
      (log ++ [Event.mk (Call.DeleteInputSecurityGroup
        { InputSecurityGroupId := some dG.Id }) none]) hb
      (by intro j hj; rw [hlen]; exact hpoll j hj)
    rw [hlen] at this
    simpa using this

theorem delete_poll_exhausted_witness :
    (resourceAwsMediaLiveInputDelete (plainHelpers 3) ⟨"42", {}, {}⟩
        ⟨steadyService "DELETING"⟩ []).1
      = some (GoError.errorf
          "error waiting for MediaLive Input (42) deletion: MediaLive Input (42) still exists")
      ∧ (resourceAwsMediaLiveInputDelete (plainHelpers 3) ⟨"42", {}, {}⟩
        ⟨steadyService "DELETING"⟩ []).2.length = 4
      ∧ (resourceAwsMediaLiveInputSecurityGroupDelete (plainHelpers 3) ⟨"77", {}, {}⟩
        ⟨steadyService "DELETING"⟩ []).1
      = some (GoError.errorf
          ("error waiting for MediaLive Input Security Group (77) deletion: "
            ++ "MediaLive Input Security Group (77) still exists")) :=
  have w := delete_poll_exhausted (plainHelpers 3) ⟨steadyService "DELETING"⟩ []
    ⟨"42", {}, {}⟩ ⟨"77", {}, {}⟩
  ⟨congrArg Prod.fst (w.1 rfl (by decide) (by decide)),
    congrArg (fun r => r.2.length) (w.1 rfl (by decide) (by decide)),
    congrArg Prod.fst (w.2 rfl (by decide) (by decide))⟩

/-- C1: what the code does in timeout case 1.  A Describe is made after the timeout
only when the timeout elapsed before any poll attempt completed.  When the delete call
succeeds, no poll attempt completes within the timeout and the Describe made after the
timeout succeeds with a state other than DELETED, both Delete functions return nil,
that is success, after the delete call and that one Describe; they do not return a
timeout error. -/
theorem delete_timeout_still_present_returns_success (h : Helpers) (meta : AWSClient)
    (log : List Event) (dI : ResourceData InputAttrs)
    (dG : ResourceData InputSecurityGroupAttrs) :
    (meta.medialiveconn.deleteInput log.length { InputId := some dI.Id } = none →
      h.attempts 30 = 0 →
      pollClass (inputState meta.medialiveconn dI.Id (log.length + 1)) = .retryable →
      resourceAwsMediaLiveInputDelete h dI meta log
        = (none,
            log ++ [Event.mk (Call.DeleteInput { InputId := some dI.Id }) none,
              Event.mk (Call.DescribeInput { InputId := some dI.Id }) none]))
    ∧ (meta.medialiveconn.deleteInputSecurityGroup log.length
          { InputSecurityGroupId := some dG.Id } = none →
      h.attempts (5 * 60) = 0 →
      pollClass (securityGroupState meta.medialiveconn dG.Id (log.length + 1)) = .retryable →
      resourceAwsMediaLiveInputSecurityGroupDelete h dG meta log
        = (none,
            log ++ [Event.mk (Call.DeleteInputSecurityGroup
                { InputSecurityGroupId := some dG.Id }) none,
              Event.mk (Call.DescribeInputSecurityGroup
                { InputSecurityGroupId := some dG.Id }) none])) := by
  constructor
  · intro hdel hb hfin
    rw [resourceAwsMediaLiveInputDelete_eq, hdel]
    simp only [hb]
    rw [confirmDeletion_timeout]
    have hlen : (log ++ [Event.mk (Call.DeleteInput { InputId := some dI.Id }) none]).length
        = log.length + 1 := by simp
    rw [hlen]
    cases hr : inputState meta.medialiveconn dI.Id (log.length + 1) with
    | error err =>
      rw [hr] at hfin
      simp only [pollClass] at hfin
      split at hfin <;> simp at hfin
    | ok s => simp [errOf]
  · intro hdel hb hfin
    rw [resourceAwsMediaLiveInputSecurityGroupDelete_eq, hdel]
    simp only [hb]
    rw [confirmDeletion_timeout]
    have hlen : (log ++ [Event.mk (Call.DeleteInputSecurityGroup
        { InputSecurityGroupId := some dG.Id }) none]).length = log.length + 1 := by simp
    rw [hlen]
    cases hr : securityGroupState meta.medialiveconn dG.Id (log.length + 1) with
    | error err =>
      rw [hr] at hfin
      simp only [pollClass] at hfin
      split at hfin <;> simp at hfin
    | ok s => simp [errOf]

theorem delete_timeout_still_present_returns_success_witness :
    resourceAwsMediaLiveInputDelete (plainHelpers 0) ⟨"42", {}, {}⟩
        ⟨steadyService "DELETING"⟩ []
      = (none,
          [Event.mk (Call.DeleteInput { InputId := some "42" }) none,
            Event.mk (Call.DescribeInput { InputId := some "42" }) none])
      ∧ resourceAwsMediaLiveInputSecurityGroupDelete (plainHelpers 0) ⟨"77", {}, {}⟩
        ⟨steadyService "DELETING"⟩ []
      = (none,
          [Event.mk (Call.DeleteInputSecurityGroup { InputSecurityGroupId := some "77" }) none,
            Event.mk (Call.DescribeInputSecurityGroup
              { InputSecurityGroupId := some "77" }) none]) :=
  have w := delete_timeout_still_present_returns_success (plainHelpers 0)
    ⟨steadyService "DELETING"⟩ [] ⟨"42", {}, {}⟩ ⟨"77", {}, {}⟩
  ⟨w.1 rfl rfl (by decide), w.2 rfl rfl (by decide)⟩

/-- C2: what the code does in timeout case 2.  When the delete call succeeds, no poll
attempt completes within the timeout and the Describe made after the timeout reports
an error, the NotFound error included, both Delete functions return an error that wraps
it, after the delete call and that one Describe; for NotFound they do not return
success. -/
theorem delete_timeout_notFound_returns_error (h : Helpers) (meta : AWSClient)
    (log : List Event) (dI : ResourceData InputAttrs)
    (dG : ResourceData InputSecurityGroupAttrs) (err : ClientError) :
    (meta.medialiveconn.deleteInput log.length { InputId := some dI.Id } = none →
      h.attempts 30 = 0 →
      meta.medialiveconn.describeInput (log.length + 1) { InputId := some dI.Id }
        = .error err →
      resourceAwsMediaLiveInputDelete h dI meta log
        = (some (fmt.Errorf
              ("error waiting for MediaLive Input (" ++ dI.Id ++ ") deletion: "
                ++ err.Error)),
            log ++ [Event.mk (Call.DeleteInput { InputId := some dI.Id }) none,
              Event.mk (Call.DescribeInput { InputId := some dI.Id })
                (some (GoError.client err))]))
    ∧ (meta.medialiveconn.deleteInputSecurityGroup log.length
          { InputSecurityGroupId := some dG.Id } = none →
      h.attempts (5 * 60) = 0 →
      meta.medialiveconn.describeInputSecurityGroup (log.length + 1)
        { InputSecurityGroupId := some dG.Id } = .error err →
      resourceAwsMediaLiveInputSecurityGroupDelete h dG meta log
        = (some (fmt.Errorf
              ("error waiting for MediaLive Input Security Group (" ++ dG.Id
                ++ ") deletion: " ++ err.Error)),
            log ++ [Event.mk (Call.DeleteInputSecurityGroup
                { InputSecurityGroupId := some dG.Id }) none,
              Event.mk (Call.DescribeInputSecurityGroup
                { InputSecurityGroupId := some dG.Id }) (some (GoError.client err))])) := by
  constructor
  · intro hdel hb hfin
    rw [resourceAwsMediaLiveInputDelete_eq, hdel]
    simp only [hb]
    rw [confirmDeletion_timeout]
    have hlen : (log ++ [Event.mk (Call.DeleteInput { InputId := some dI.Id }) none]).length
        = log.length + 1 := by simp
    have hr : inputState meta.medialiveconn dI.Id (log.length + 1) = .error err := by
      simp only [inputState, ResourceData.Id] at hfin ⊢
      rw [hfin]
      rfl
    rw [hlen, hr]
    simp [errOf]
  · intro hdel hb hfin
    rw [resourceAwsMediaLiveInputSecurityGroupDelete_eq, hdel]
    simp only [hb]
    rw [confirmDeletion_timeout]
    have hlen : (log ++ [Event.mk (Call.DeleteInputSecurityGroup
        { InputSecurityGroupId := some dG.Id }) none]).length = log.length + 1 := by simp
    have hr : securityGroupState meta.medialiveconn dG.Id (log.length + 1) = .error err := by
      simp only [securityGroupState, ResourceData.Id] at hfin ⊢
      rw [hfin]
      rfl
    rw [hlen, hr]
    simp [errOf]

theorem delete_timeout_notFound_returns_error_witness :
    isAWSErr (ClientError.aws "NotFoundException" "input not found")
        medialive.ErrCodeNotFoundException "" = true
      ∧ (resourceAwsMediaLiveInputDelete (plainHelpers 0) ⟨"42", {}, {}⟩
          ⟨vanishingService 0⟩ []).1
        = some (GoError.errorf
          "error waiting for MediaLive Input (42) deletion: NotFoundException: input not found")
      ∧ (resourceAwsMediaLiveInputSecurityGroupDelete (plainHelpers 0) ⟨"77", {}, {}⟩
          ⟨vanishingService 0⟩ []).1
        = some (GoError.errorf
          ("error waiting for MediaLive Input Security Group (77) deletion: "
            ++ "NotFoundException: security group not found")) :=
  ⟨by decide,
    congrArg Prod.fst
      ((delete_timeout_notFound_returns_error (plainHelpers 0) ⟨vanishingService 0⟩ []
        ⟨"42", {}, {}⟩ ⟨"77", {}, {}⟩
        (ClientError.aws "NotFoundException" "input not found")).1 rfl rfl rfl),
    congrArg Prod.fst
      ((delete_timeout_notFound_returns_error (plainHelpers 0) ⟨vanishingService 0⟩ []
        ⟨"42", {}, {}⟩ ⟨"77", {}, {}⟩
        (ClientError.aws "NotFoundException" "security group not found")).2 rfl rfl rfl)⟩

/-- C3: when the remote delete call itself fails, Delete returns success if and only
if the error is of the NotFound kind, for every other error it returns an error that
wraps it, and in both cases the delete call is the only call made: no Describe
follows.  So Delete on an entity that is already gone, for which the remote answers
NotFound, does not fail. -/
theorem delete_call_failure (h : Helpers) (meta : AWSClient) (log : List Event)
    (dI : ResourceData InputAttrs) (dG : ResourceData InputSecurityGroupAttrs)
    (err : ClientError) :
    (meta.medialiveconn.deleteInput log.length { InputId := some dI.Id } = some err →
      resourceAwsMediaLiveInputDelete h dI meta log
          = (if isAWSErr err medialive.ErrCodeNotFoundException "" then none
              else some (fmt.Errorf ("error deleting MediaLive Input: " ++ err.Error)),
            log ++ [Event.mk (Call.DeleteInput { InputId := some dI.Id })
              (some (GoError.client err))])
        ∧ ((resourceAwsMediaLiveInputDelete h dI meta log).1 = none
          ↔ ∃ message, err = ClientError.aws "NotFoundException" message))
    ∧ (meta.medialiveconn.deleteInputSecurityGroup log.length
          { InputSecurityGroupId := some dG.Id } = some err →
      resourceAwsMediaLiveInputSecurityGroupDelete h dG meta log
          = (if isAWSErr err medialive.ErrCodeNotFoundException "" then none
              else some (fmt.Errorf
                ("error deleting MediaLive Input Security Group: " ++ err.Error)),
            log ++ [Event.mk (Call.DeleteInputSecurityGroup
              { InputSecurityGroupId := some dG.Id }) (some (GoError.client err))])
        ∧ ((resourceAwsMediaLiveInputSecurityGroupDelete h dG meta log).1 = none
          ↔ ∃ message, err = ClientError.aws "NotFoundException" message)) := by
  constructor
  · intro hdel
    rw [resourceAwsMediaLiveInputDelete_eq, hdel, ← isAWSErr_notFound_iff]
    refine ⟨rfl, ?_⟩
    by_cases hn : isAWSErr err medialive.ErrCodeNotFoundException "" = true <;> simp [hn]
  · intro hdel
    rw [resourceAwsMediaLiveInputSecurityGroupDelete_eq, hdel, ← isAWSErr_notFound_iff]
    refine ⟨rfl, ?_⟩
    by_cases hn : isAWSErr err medialive.ErrCodeNotFoundException "" = true <;> simp [hn]

theorem delete_call_failure_witness :
    resourceAwsMediaLiveInputDelete (plainHelpers 3) ⟨"42", {}, {}⟩
        ⟨refusingService (ClientError.aws "NotFoundException" "gone")⟩ []
      = (none, [Event.mk (Call.DeleteInput { InputId := some "42" })
          (some (GoError.client (ClientError.aws "NotFoundException" "gone")))])
    ∧ resourceAwsMediaLiveInputSecurityGroupDelete (plainHelpers 3) ⟨"77", {}, {}⟩
        ⟨refusingService (ClientError.aws "NotFoundException" "gone")⟩ []
      = (none, [Event.mk (Call.DeleteInputSecurityGroup { InputSecurityGroupId := some "77" })
          (some (GoError.client (ClientError.aws "NotFoundException" "gone")))]) :=
  have w := delete_call_failure (plainHelpers 3)
    ⟨refusingService (ClientError.aws "NotFoundException" "gone")⟩ []
    ⟨"42", {}, {}⟩ ⟨"77", {}, {}⟩ (ClientError.aws "NotFoundException" "gone")
  ⟨(w.1 rfl).1, (w.2 rfl).1⟩

/-- C4: the delete-confirmation poll before the timeout.  After a successful delete
call, if the first `k` attempts are retryable (Describe succeeds with a state other
than DELETED) and attempt `k`, still within the budget, is not, then that attempt
decides Delete: success if it is done (NotFound, or state exactly DELETED), an error
naming the entity type and the ID and wrapping the Describe error if it is
non-retryable; the trace is the delete call followed by exactly `k + 1` Describe
calls, so nothing is issued after the deciding attempt. -/
theorem delete_poll_first_nonretryable_decides (h : Helpers) (meta : AWSClient)
    (log : List Event) (dI : ResourceData InputAttrs)
    (dG : ResourceData InputSecurityGroupAttrs) (k : Nat) :
    (meta.medialiveconn.deleteInput log.length { InputId := some dI.Id } = none →
      k < h.attempts 30 →
      (∀ j, j < k →
        pollClass (inputState meta.medialiveconn dI.Id (log.length + 1 + j)) = .retryable) →
      pollClass (inputState meta.medialiveconn dI.Id (log.length + 1 + k)) ≠ .retryable →
      (pollClass (inputState meta.medialiveconn dI.Id (log.length + 1 + k)) = .done →
          (resourceAwsMediaLiveInputDelete h dI meta log).1 = none)
        ∧ (∀ err, inputState meta.medialiveconn dI.Id (log.length + 1 + k) = .error err →
          pollClass (inputState meta.medialiveconn dI.Id (log.length + 1 + k)) = .nonRetryable →
          (resourceAwsMediaLiveInputDelete h dI meta log).1
            = some (fmt.Errorf
              ("error waiting for MediaLive Input (" ++ dI.Id ++ ") deletion: " ++ err.Error)))
        ∧ (resourceAwsMediaLiveInputDelete h dI meta log).2
          = log ++ Event.mk (Call.DeleteInput { InputId := some dI.Id }) none ::
              describeEvents (inputState meta.medialiveconn dI.Id)
                (Call.DescribeInput { InputId := some dI.Id }) (log.length + 1) (k + 1))
    ∧ (meta.medialiveconn.deleteInputSecurityGroup log.length
          { InputSecurityGroupId := some dG.Id } = none →
      k < h.attempts (5 * 60) →
      (∀ j, j < k →
        pollClass (securityGroupState meta.medialiveconn dG.Id (log.length + 1 + j))
          = .retryable) →
      pollClass (securityGroupState meta.medialiveconn dG.Id (log.length + 1 + k))
        ≠ .retryable →
      (pollClass (securityGroupState meta.medialiveconn dG.Id (log.length + 1 + k)) = .done →
          (resourceAwsMediaLiveInputSecurityGroupDelete h dG meta log).1 = none)
        ∧ (∀ err, securityGroupState meta.medialiveconn dG.Id (log.length + 1 + k)
            = .error err →
          pollClass (securityGroupState meta.medialiveconn dG.Id (log.length + 1 + k))
            = .nonRetryable →
          (resourceAwsMediaLiveInputSecurityGroupDelete h dG meta log).1
            = some (fmt.Errorf
              ("error waiting for MediaLive Input Security Group (" ++ dG.Id
                ++ ") deletion: " ++ err.Error)))
        ∧ (resourceAwsMediaLiveInputSecurityGroupDelete h dG meta log).2
          = log ++ Event.mk (Call.DeleteInputSecurityGroup
                { InputSecurityGroupId := some dG.Id }) none ::
              describeEvents (securityGroupState meta.medialiveconn dG.Id)
                (Call.DescribeInputSecurityGroup { InputSecurityGroupId := some dG.Id })
                (log.length + 1) (k + 1)) := by
  constructor
  · intro hdel hkb hk hstop
    have hlen : (log ++ [Event.mk (Call.DeleteInput { InputId := some dI.Id }) none]).length
        = log.length + 1 := by simp
    have key := confirmDeletion_stop (inputState meta.medialiveconn dI.Id)
      (Call.DescribeInput { InputId := some dI.Id })
      ("MediaLive Input (" ++ dI.Id ++ ") still exists")
      ("error waiting for MediaLive Input (" ++ dI.Id ++ ") deletion: ") (h.attempts 30) k
      (log ++ [Event.mk (Call.DeleteInput { InputId := some dI.Id }) none]) hkb
      (by intro j hj; rw [hlen]; exact hk j hj) (by rw [hlen]; exact hstop)
    rw [hlen] at key
    rw [resourceAwsMediaLiveInputDelete_eq, hdel]
    simp only
    rw [key]
    refine ⟨?_, ?_, by simp⟩
    · intro hd
      cases hr : inputState meta.medialiveconn dI.Id (log.length + 1 + k) with
      | ok s => rfl
      | error err =>
        rw [hr] at hd
        have : isAWSErr err medialive.ErrCodeNotFoundException "" = true := by
          by_contra hn
          simp [pollClass, hn] at hd
        simp [this]
    · intro err hr hc
      rw [hr] at hc ⊢
      have : ¬ isAWSErr err medialive.ErrCodeNotFoundException "" = true := by
        intro hn
        simp [pollClass, hn] at hc
      simp [this]
  · intro hdel hkb hk hstop
    have hlen : (log ++ [Event.mk (Call.DeleteInputSecurityGroup
        { InputSecurityGroupId := some dG.Id }) none]).length = log.length + 1 := by simp
    have key := confirmDeletion_stop (securityGroupState meta.medialiveconn dG.Id)
      (Call.DescribeInputSecurityGroup { InputSecurityGroupId := some dG.Id })
      ("MediaLive Input Security Group (" ++ dG.Id ++ ") still exists")
      ("error waiting for MediaLive Input Security Group (" ++ dG.Id ++ ") deletion: ")
      (h.attempts (5 * 60)) k
      (log ++ [Event.mk (Call.DeleteInputSecurityGroup
        { InputSecurityGroupId := some dG.Id }) none]) hkb
      (by intro j hj; rw [hlen]; exact hk j hj) (by rw [hlen]; exact hstop)
    rw [hlen] at key
    rw [resourceAwsMediaLiveInputSecurityGroupDelete_eq, hdel]
    simp only
    rw [key]
    refine ⟨?_, ?_, by simp⟩
    · intro hd
      cases hr : securityGroupState meta.medialiveconn dG.Id (log.length + 1 + k) with
      | ok s => rfl
      | error err =>
        rw [hr] at hd
        have : isAWSErr err medialive.ErrCodeNotFoundException "" = true := by
          by_contra hn
          simp [pollClass, hn] at hd
        simp [this]
    · intro err hr hc
      rw [hr] at hc ⊢
      have : ¬ isAWSErr err medialive.ErrCodeNotFoundException "" = true := by
        intro hn
        simp [pollClass, hn] at hc
      simp [this]

theorem delete_poll_first_nonretryable_decides_witness :
    (resourceAwsMediaLiveInputDelete (plainHelpers 5) ⟨"42", {}, {}⟩
        ⟨vanishingService 3⟩ []).1 = none
      ∧ (resourceAwsMediaLiveInputDelete (plainHelpers 5) ⟨"42", {}, {}⟩
        ⟨vanishingService 3⟩ []).2.length = 5
      ∧ (resourceAwsMediaLiveInputSecurityGroupDelete (plainHelpers 5) ⟨"77", {}, {}⟩
        ⟨vanishingService 3⟩ []).1 = none :=
  have w := delete_poll_first_nonretryable_decides (plainHelpers 5) ⟨vanishingService 3⟩ []
    ⟨"42", {}, {}⟩ ⟨"77", {}, {}⟩ 3
  have wI := w.1 rfl (by decide) (by decide) (by decide)
  have wG := w.2 rfl (by decide) (by decide) (by decide)
  ⟨wI.1 (by decide), by rw [wI.2.2]; rfl, wG.1 (by decide)⟩

/-! ## Update -/

theorem failuresLast_split (pre post : List Event) (ev : Event)
    (h : failuresLast (pre ++ ev :: post) = true) (he : ev.err ≠ none) : post = [] := by
  induction pre with
  | nil =>
    simp only [List.nil_append, failuresLast, Bool.and_eq_true, Bool.or_eq_true] at h
    rcases h.1 with h1 | h1
    · cases hev : ev.err with
      | none => exact absurd hev he
      | some e => simp [hev] at h1
    · simpa using h1
  | cons p ps ih =>
    simp only [List.cons_append, failuresLast, Bool.and_eq_true] at h
    exact ih h.2

theorem anyFailure_of_mem (evs : List Event) (ev : Event) (hm : ev ∈ evs) (he : ev.err ≠ none) :
    anyFailure evs = true := by
  unfold anyFailure
  rw [List.any_eq_true]
  refine ⟨ev, hm, ?_⟩
  cases hev : ev.err with
  | none => exact absurd hev he
  | some e => rfl

theorem resourceAwsMediaLiveInputRead_trace (h : Helpers) (d : ResourceData InputAttrs)
    (meta : AWSClient) (log : List Event) :
    (resourceAwsMediaLiveInputRead h d meta log).2.2
        = log ++ [Event.mk (Call.DescribeInput { InputId := some d.Id })
            (errOf (meta.medialiveconn.describeInput log.length { InputId := some d.Id }))]
      ∧ ((resourceAwsMediaLiveInputRead h d meta log).1 = none
        ↔ errOf (meta.medialiveconn.describeInput log.length { InputId := some d.Id }) = none) := by
  unfold resourceAwsMediaLiveInputRead
  simp only [MediaLive.DescribeInput, setTags]
  cases meta.medialiveconn.describeInput log.length { InputId := some d.Id } <;> simp [errOf]

theorem resourceAwsMediaLiveInputSecurityGroupRead_trace (h : Helpers)
    (d : ResourceData InputSecurityGroupAttrs) (meta : AWSClient) (log : List Event) :
    (resourceAwsMediaLiveInputSecurityGroupRead h d meta log).2.2
        = log ++ [Event.mk (Call.DescribeInputSecurityGroup { InputSecurityGroupId := some d.Id })
            (errOf (meta.medialiveconn.describeInputSecurityGroup log.length
              { InputSecurityGroupId := some d.Id }))]
      ∧ ((resourceAwsMediaLiveInputSecurityGroupRead h d meta log).1 = none
        ↔ errOf (meta.medialiveconn.describeInputSecurityGroup log.length
            { InputSecurityGroupId := some d.Id }) = none) := by
  unfold resourceAwsMediaLiveInputSecurityGroupRead
  simp only [MediaLive.DescribeInputSecurityGroup, setTags]
  cases meta.medialiveconn.describeInputSecurityGroup log.length
    { InputSecurityGroupId := some d.Id } <;> simp [errOf]

theorem traceOk_fail (log : List Event) (e : GoError) (ev : Event) :
    TraceOk log (some e) (log ++ [ev]) :=
  ⟨[ev], rfl, by simp [failuresLast], by simp⟩

theorem traceOk_cons (log : List Event) (ev : Event) (err : Option GoError) (log' : List Event)
    (hev : ev.err = none) (h : TraceOk (log ++ [ev]) err log') : TraceOk log err log' := by
  obtain ⟨evs, h1, h2, h3⟩ := h
  refine ⟨ev :: evs, by simp [h1], by simp [failuresLast, hev, h2], ?_⟩
  intro ha
  apply h3
  simpa [anyFailure, hev] using ha

theorem traceOk_updateStage {D : Type} (step : List Event → Option ClientError × List Event)
    (wrap : ClientError → GoError) (d : D)
    (rest : List Event → Option GoError × D × List Event) (hstep : StepOk step)
    (hrest : ∀ log, TraceOk log (rest log).1 (rest log).2.2) (log : List Event) :
    TraceOk log (updateStage step wrap d rest log).1 (updateStage step wrap d rest log).2.2 := by
  unfold updateStage
  rcases hstep log with h0 | ⟨ev, h2, h3⟩
  · rw [h0]
    exact hrest log
  · rcases hs : step log with ⟨err, log1⟩
    rw [hs] at h2 h3
    simp only at h2 h3
    subst h2
    cases err with
    | none => exact traceOk_cons _ ev _ _ (h3.mpr rfl) (hrest _)
    | some e => exact traceOk_fail _ _ _

theorem traceOk_tagStage {D : Type} (step : List Event → Option GoError × List Event)
    (wrap : GoError → GoError) (d : D)
    (rest : List Event → Option GoError × D × List Event) (hstep : StepOk step)
    (hrest : ∀ log, TraceOk log (rest log).1 (rest log).2.2) (log : List Event) :
    TraceOk log (tagStage step wrap d rest log).1 (tagStage step wrap d rest log).2.2 := by
  unfold tagStage
  rcases hstep log with h0 | ⟨ev, h2, h3⟩
  · rw [h0]
    exact hrest log
  · rcases hs : step log with ⟨err, log1⟩
    rw [hs] at h2 h3
    simp only at h2 h3
    subst h2
    cases err with
    | none => exact traceOk_cons _ ev _ _ (h3.mpr rfl) (hrest _)
    | some e => exact traceOk_fail _ _ _

theorem stepOk_updateInput (c : Bool) (conn : MediaLive) (req : medialive.UpdateInputInput) :
    StepOk (fun log => if c then conn.UpdateInput req log else (none, log)) := by
  intro log
  cases c with
  | false => exact Or.inl rfl
  | true =>
    refine Or.inr ⟨_, rfl, ?_⟩
    simp [MediaLive.UpdateInput]

theorem stepOk_updateInputSecurityGroup (c : Bool) (conn : MediaLive)
    (req : medialive.UpdateInputSecurityGroupInput) :
    StepOk (fun log => if c then conn.UpdateInputSecurityGroup req log else (none, log)) := by
  intro log
  cases c with
  | false => exact Or.inl rfl
  | true =>
    refine Or.inr ⟨_, rfl, ?_⟩
    simp [MediaLive.UpdateInputSecurityGroup]

theorem stepOk_updateTags (c : Bool) (conn : MediaLive) (arn : String) (o n : Tags) :
    StepOk (fun log =>
      if c then keyvaluetags.MedialiveUpdateTags conn arn o n log else (none, log)) := by
  intro log
  cases c with
  | false => exact Or.inl rfl
  | true =>
    refine Or.inr ⟨_, rfl, ?_⟩
    simp [keyvaluetags.MedialiveUpdateTags]

theorem traceOk_inputRead (h : Helpers) (d : ResourceData InputAttrs) (meta : AWSClient)
    (log : List Event) :
    TraceOk log (resourceAwsMediaLiveInputRead h d meta log).1
      (resourceAwsMediaLiveInputRead h d meta log).2.2 := by
  obtain ⟨h1, h2⟩ := resourceAwsMediaLiveInputRead_trace h d meta log
  refine ⟨_, h1, by simp [failuresLast], ?_⟩
  intro ha hn
  rw [h2] at hn
  simp [anyFailure, hn] at ha

theorem traceOk_securityGroupRead (h : Helpers) (d : ResourceData InputSecurityGroupAttrs)
    (meta : AWSClient) (log : List Event) :
    TraceOk log (resourceAwsMediaLiveInputSecurityGroupRead h d meta log).1
      (resourceAwsMediaLiveInputSecurityGroupRead h d meta log).2.2 := by
  obtain ⟨h1, h2⟩ := resourceAwsMediaLiveInputSecurityGroupRead_trace h d meta log
  refine ⟨_, h1, by simp [failuresLast], ?_⟩
  intro ha hn
  rw [h2] at hn
  simp [anyFailure, hn] at ha

theorem resourceAwsMediaLiveInputUpdate_eq (h : Helpers) (d : ResourceData InputAttrs)
    (meta : AWSClient) (log : List Event) :
    resourceAwsMediaLiveInputUpdate h d meta log =
      updateStage
        (fun log =>
          if d.HasChange (·.destinations) then
            meta.medialiveconn.UpdateInput
              { InputId := some d.Id
                Destinations := expandInputDestinationRequest (d.Get (·.destinations)) } log
          else (none, log))
        (fun err => fmt.Errorf ("error updating MediaLive Input: " ++ err.Error)) d
        (updateStage
          (fun log =>
            if d.HasChange (·.input_security_groups) then
              meta.medialiveconn.UpdateInput
                { InputId := some d.Id
                  InputSecurityGroups :=
                    h.expandStringList (d.Get (·.input_security_groups)) } log
            else (none, log))
          (fun err => fmt.Errorf ("error updating MediaLive Input: " ++ err.Error)) d
          (updateStage
            (fun log =>
              if d.HasChange (·.name) then
                meta.medialiveconn.UpdateInput
                  { InputId := some d.Id, Name := some (d.Get (·.name)) } log
              else (none, log))
            (fun err => fmt.Errorf ("error updating MediaLive Input: " ++ err.Error)) d
            (tagStage
              (fun log =>
                if d.HasChange (·.tags) then
                  keyvaluetags.MedialiveUpdateTags meta.medialiveconn (d.Get (·.arn))
                    (d.GetChange (·.tags)).1 (d.GetChange (·.tags)).2 log
                else (none, log))
              (fun err => fmt.Errorf
                ("error updating MediaPackage Channel (" ++ d.Get (·.arn) ++ ") tags: "
                  ++ err.Error)) d
              (resourceAwsMediaLiveInputRead h d meta))))
        log := by
  rfl

theorem resourceAwsMediaLiveInputSecurityGroupUpdate_eq (h : Helpers)
    (d : ResourceData InputSecurityGroupAttrs) (meta : AWSClient) (log : List Event) :
    resourceAwsMediaLiveInputSecurityGroupUpdate h d meta log =
      updateStage
        (fun log =>
          if d.HasChange (·.ipv4_whitelist) then
            meta.medialiveconn.UpdateInputSecurityGroup
              { InputSecurityGroupId := some d.Id
                WhitelistRules := expandIPv4Whitelist (d.Get (·.ipv4_whitelist)) } log
          else (none, log))
        (fun err =>
          fmt.Errorf ("error updating MediaLive Input Security Group: " ++ err.Error)) d
        (tagStage
          (fun log =>
            if d.HasChange (·.tags) then
              keyvaluetags.MedialiveUpdateTags meta.medialiveconn (d.Get (·.arn))
                (d.GetChange (·.tags)).1 (d.GetChange (·.tags)).2 log
            else (none, log))
          (fun err => fmt.Errorf
            ("error updating MediaPackage Channel (" ++ d.Get (·.arn) ++ ") tags: "
              ++ err.Error)) d
          (resourceAwsMediaLiveInputSecurityGroupRead h d meta))
        log := by
  rfl

theorem traceOk_inputUpdate (h : Helpers) (d : ResourceData InputAttrs) (meta : AWSClient)
    (log : List Event) :
    TraceOk log (resourceAwsMediaLiveInputUpdate h d meta log).1
      (resourceAwsMediaLiveInputUpdate h d meta log).2.2 := by
  rw [resourceAwsMediaLiveInputUpdate_eq]
  refine traceOk_updateStage _ _ _ _ (stepOk_updateInput _ _ _) (fun log => ?_) log
  refine traceOk_updateStage _ _ _ _ (stepOk_updateInput _ _ _) (fun log => ?_) log
  refine traceOk_updateStage _ _ _ _ (stepOk_updateInput _ _ _) (fun log => ?_) log
  exact traceOk_tagStage _ _ _ _ (stepOk_updateTags _ _ _ _ _)
    (traceOk_inputRead h d meta) log

theorem traceOk_securityGroupUpdate (h : Helpers) (d : ResourceData InputSecurityGroupAttrs)
    (meta : AWSClient) (log : List Event) :
    TraceOk log (resourceAwsMediaLiveInputSecurityGroupUpdate h d meta log).1
      (resourceAwsMediaLiveInputSecurityGroupUpdate h d meta log).2.2 := by
  rw [resourceAwsMediaLiveInputSecurityGroupUpdate_eq]
  refine traceOk_updateStage _ _ _ _ (stepOk_updateInputSecurityGroup _ _ _) (fun log => ?_) log
  exact traceOk_tagStage _ _ _ _ (stepOk_updateTags _ _ _ _ _)
    (traceOk_securityGroupRead h d meta) log

theorem updateInputRequests_append (l₁ l₂ : List Event) :
    updateInputRequests (l₁ ++ l₂) = updateInputRequests l₁ ++ updateInputRequests l₂ := by
  simp [updateInputRequests, List.filterMap_append]

/-- C8: update diff minimality.  If the tag map is the only attribute that differs
between the old and the new desired state, Update of an input, and of an input
security group, issues exactly one tag-update call, with the ARN, the old tag map and
the new tag map, and no field-group update call: the trace is that call, followed by
the Describe of the concluding Read when the tag update succeeded. -/
theorem update_only_tags_changed (h : Helpers) (meta : AWSClient) (log : List Event)
    (dI : ResourceData InputAttrs) (dG : ResourceData InputSecurityGroupAttrs) :
    (dI.attrs = { dI.state with tags := dI.attrs.tags } → dI.state.tags ≠ dI.attrs.tags →
      (resourceAwsMediaLiveInputUpdate h dI meta log).2.2
        = log ++
          Event.mk (Call.UpdateTags dI.attrs.arn dI.state.tags dI.attrs.tags)
              (meta.medialiveconn.updateTags log.length dI.attrs.arn dI.state.tags
                dI.attrs.tags) ::
            (match meta.medialiveconn.updateTags log.length dI.attrs.arn dI.state.tags
                dI.attrs.tags with
              | some _ => []
              | none =>
                [Event.mk (Call.DescribeInput { InputId := some dI.Id })
                  (errOf (meta.medialiveconn.describeInput (log.length + 1)
                    { InputId := some dI.Id }))]))
    ∧ (dG.attrs = { dG.state with tags := dG.attrs.tags } → dG.state.tags ≠ dG.attrs.tags →
      (resourceAwsMediaLiveInputSecurityGroupUpdate h dG meta log).2.2
        = log ++
          Event.mk (Call.UpdateTags dG.attrs.arn dG.state.tags dG.attrs.tags)
              (meta.medialiveconn.updateTags log.length dG.attrs.arn dG.state.tags
                dG.attrs.tags) ::
            (match meta.medialiveconn.updateTags log.length dG.attrs.arn dG.state.tags
                dG.attrs.tags with
              | some _ => []
              | none =>
                [Event.mk (Call.DescribeInputSecurityGroup
                    { InputSecurityGroupId := some dG.Id })
                  (errOf (meta.medialiveconn.describeInputSecurityGroup (log.length + 1)
                    { InputSecurityGroupId := some dG.Id }))])) := by
  constructor
  · intro honly htags
    have e1 : dI.attrs.destinations = dI.state.destinations := by rw [honly]
    have e2 : dI.attrs.input_security_groups = dI.state.input_security_groups := by rw [honly]
    have e3 : dI.attrs.name = dI.state.name := by rw [honly]
    rw [resourceAwsMediaLiveInputUpdate_eq]
    simp only [updateStage, tagStage, ResourceData.HasChange, ResourceData.GetChange,
      ResourceData.Get, e1, e2, e3, ne_eq, not_true_eq_false, decide_False, htags,
      not_false_eq_true, decide_True, if_true, keyvaluetags.MedialiveUpdateTags]
    cases hr : meta.medialiveconn.updateTags log.length dI.attrs.arn dI.state.tags
        dI.attrs.tags with
    | some e => simp [hr]
    | none =>
      simp [hr, fun l => (resourceAwsMediaLiveInputRead_trace h dI meta l).1]
  · intro honly htags
    have e1 : dG.attrs.ipv4_whitelist = dG.state.ipv4_whitelist := by rw [honly]
    rw [resourceAwsMediaLiveInputSecurityGroupUpdate_eq]
    simp only [updateStage, tagStage, ResourceData.HasChange, ResourceData.GetChange,
      ResourceData.Get, e1, ne_eq, not_true_eq_false, decide_False, htags,
      not_false_eq_true, decide_True, if_true, keyvaluetags.MedialiveUpdateTags]
    cases hr : meta.medialiveconn.updateTags log.length dG.attrs.arn dG.state.tags
        dG.attrs.tags with
    | some e => simp [hr]
    | none =>
      simp [hr, fun l => (resourceAwsMediaLiveInputSecurityGroupRead_trace h dG meta l).1]

theorem update_only_tags_changed_witness :
    (resourceAwsMediaLiveInputUpdate (plainHelpers 3) retaggedInput
        ⟨steadyService "DETACHED"⟩ []).2.2
      = [Event.mk (Call.UpdateTags "arn:aws:medialive:us-east-1:123456789012:input:42"
            [("test", "tf_acceptance")] [("test", "tf_acceptance"), ("team", "video")]) none,
          Event.mk (Call.DescribeInput { InputId := some "42" }) none]
    ∧ (resourceAwsMediaLiveInputSecurityGroupUpdate (plainHelpers 3) retaggedSecurityGroup
        ⟨steadyService "IDLE"⟩ []).2.2
      = [Event.mk (Call.UpdateTags
            "arn:aws:medialive:us-east-1:123456789012:inputSecurityGroup:77"
            [("test", "tf_acceptance")] []) none,
          Event.mk (Call.DescribeInputSecurityGroup { InputSecurityGroupId := some "77" })
            none] :=
  have w := update_only_tags_changed (plainHelpers 3) ⟨steadyService "DETACHED"⟩ []
    retaggedInput retaggedSecurityGroup
  have w2 := update_only_tags_changed (plainHelpers 3) ⟨steadyService "IDLE"⟩ []
    retaggedInput retaggedSecurityGroup
  ⟨w.1 rfl (by decide), w2.2 rfl (by decide)⟩

/-- C9: one update call per changed field group.  When every update call and the
tag update succeed, the `UpdateInput` requests that Update adds to the trace are, in
this order, one for destinations if they changed, one for the security groups if they
changed, and one for the name if it changed; each request carries the ID and the new
value of its group and leaves every other field unset, so their number is the number
of changed groups.  The request type has no field for the type or the VPC of the
input. -/
theorem update_one_call_per_changed_group (h : Helpers) (meta : AWSClient) (log : List Event)
    (d : ResourceData InputAttrs)
    (hok : ∀ t req, meta.medialiveconn.updateInput t req = none)
    (htag : ∀ t arn o n, meta.medialiveconn.updateTags t arn o n = none) :
    updateInputRequests (resourceAwsMediaLiveInputUpdate h d meta log).2.2
        = updateInputRequests log
          ++ (if d.HasChange (·.destinations) then
              [{ InputId := some d.Id
                 Destinations := expandInputDestinationRequest (d.Get (·.destinations)) }]
            else [])
          ++ (if d.HasChange (·.input_security_groups) then
              [{ InputId := some d.Id
                 InputSecurityGroups := h.expandStringList (d.Get (·.input_security_groups)) }]
            else [])
          ++ (if d.HasChange (·.name) then
              [{ InputId := some d.Id, Name := some (d.Get (·.name)) }]
            else [])
      ∧ (updateInputRequests (resourceAwsMediaLiveInputUpdate h d meta log).2.2).length
        = (updateInputRequests log).length
          + ((d.HasChange (·.destinations)).toNat + (d.HasChange (·.input_security_groups)).toNat
            + (d.HasChange (·.name)).toNat) := by
  rw [resourceAwsMediaLiveInputUpdate_eq]
  generalize d.HasChange (·.destinations) = c1
  generalize d.HasChange (·.input_security_groups) = c2
  generalize d.HasChange (·.name) = c3
  generalize d.HasChange (·.tags) = c4
  cases c1 <;> cases c2 <;> cases c3 <;> cases c4 <;>
    simp [updateStage, tagStage, MediaLive.UpdateInput, keyvaluetags.MedialiveUpdateTags, hok,
      htag, updateInputRequests_append,
      fun l => (resourceAwsMediaLiveInputRead_trace h d meta l).1] <;>
    simp [updateInputRequests]

theorem update_one_call_per_changed_group_witness :
    updateInputRequests (resourceAwsMediaLiveInputUpdate (plainHelpers 3) rewiredInput
        ⟨steadyService "DETACHED"⟩ []).2.2
      = [{ InputId := some "42", Destinations := [{ StreamName := some "main" }] },
          { InputId := some "42", InputSecurityGroups := ["78"] }] :=
  (update_one_call_per_changed_group (plainHelpers 3) ⟨steadyService "DETACHED"⟩ []
    rewiredInput (fun _ _ => rfl) (fun _ _ _ _ => rfl)).1

/-- C10: update abort on failure.  In the trace that Update of an input, and of an
input security group, adds, a call that failed is the last call and Update returns an
error: after a failed field-group update or a failed tag update there is no update
call for a later group, no tag update and no concluding Read. -/
theorem update_aborts_on_failure (h : Helpers) (meta : AWSClient) (log : List Event)
    (dI : ResourceData InputAttrs) (dG : ResourceData InputSecurityGroupAttrs)
    (pre post : List Event) (ev : Event) (hfail : ev.err ≠ none) :
    ((resourceAwsMediaLiveInputUpdate h dI meta log).2.2 = log ++ pre ++ ev :: post →
      (resourceAwsMediaLiveInputUpdate h dI meta log).1 ≠ none ∧ post = [])
    ∧ ((resourceAwsMediaLiveInputSecurityGroupUpdate h dG meta log).2.2
          = log ++ pre ++ ev :: post →
      (resourceAwsMediaLiveInputSecurityGroupUpdate h dG meta log).1 ≠ none ∧ post = []) := by
  constructor
  · intro hlog
    obtain ⟨evs, h1, h2, h3⟩ := traceOk_inputUpdate h dI meta log
    rw [h1, List.append_assoc] at hlog
    have hevs : evs = pre ++ ev :: post := List.append_cancel_left hlog
    subst hevs
    exact ⟨h3 (anyFailure_of_mem _ ev (by simp) hfail), failuresLast_split pre post ev h2 hfail⟩
  · intro hlog
    obtain ⟨evs, h1, h2, h3⟩ := traceOk_securityGroupUpdate h dG meta log
    rw [h1, List.append_assoc] at hlog
    have hevs : evs = pre ++ ev :: post := List.append_cancel_left hlog
    subst hevs
    exact ⟨h3 (anyFailure_of_mem _ ev (by simp) hfail), failuresLast_split pre post ev h2 hfail⟩

theorem update_aborts_on_failure_witness :
    (resourceAwsMediaLiveInputUpdate (plainHelpers 3) rewiredInput
        ⟨rejectingService (ClientError.aws "BadRequestException" "rejected")⟩ []).2.2
        = [] ++ [] ++
          Event.mk (Call.UpdateInput
              { InputId := some "42", Destinations := [{ StreamName := some "main" }] })
            (some (GoError.client (ClientError.aws "BadRequestException" "rejected"))) :: []
      ∧ (resourceAwsMediaLiveInputUpdate (plainHelpers 3) rewiredInput
        ⟨rejectingService (ClientError.aws "BadRequestException" "rejected")⟩ []).1 ≠ none :=
  ⟨rfl,
    ((update_aborts_on_failure (plainHelpers 3)
      ⟨rejectingService (ClientError.aws "BadRequestException" "rejected")⟩ []
      rewiredInput retaggedSecurityGroup [] []
      (Event.mk (Call.UpdateInput
          { InputId := some "42", Destinations := [{ StreamName := some "main" }] })
        (some (GoError.client (ClientError.aws "BadRequestException" "rejected"))))
      (by decide)).1 rfl).1⟩

/-! ## Create, Read, validation and the channel resource -/

/-- C14: what the code does for a channel.  Create of a channel makes no remote call
and sets no ID: it returns nil and leaves the resource data and the trace as they
were, so a resource that is new, with the empty ID, still has the empty ID after a
successful Create. -/
theorem channelCreate_sets_no_id {A : Type} (d : ResourceData A) (meta : AWSClient)
    (log : List Event) :
    resourceAwsMediaLiveChannelCreate d meta log = (none, d, log)
      ∧ (resourceAwsMediaLiveChannelCreate d meta log).2.1.Id = d.Id
      ∧ (resourceAwsMediaLiveChannelCreate ({ d with id := "" }) meta log).2.1.Id = "" :=
  ⟨rfl, rfl, rfl⟩

theorem expandIPv4Whitelist_eq_map (cidrs : List String) :
    expandIPv4Whitelist cidrs
      = cidrs.map fun cidr => ({ Cidr := some cidr } : medialive.InputWhitelistRuleCidr) := by
  unfold expandIPv4Whitelist
  rw [foldl_append_singleton]
  rfl

/-- C17: whitelist round trip.  For every list of CIDR strings, `expandIPv4Whitelist`
gives a list of the same length whose rule number `i` carries the string number `i`,
and when the remote record holds the rules that were sent, the Read of the security
group succeeds and stores exactly the strings, in order, in `ipv4_whitelist`. -/
theorem whitelist_round_trip (h : Helpers) (d : ResourceData InputSecurityGroupAttrs)
    (meta : AWSClient) (log : List Event) (cs : List String)
    (resp : medialive.DescribeInputSecurityGroupOutput)
    (hresp : meta.medialiveconn.describeInputSecurityGroup log.length
      { InputSecurityGroupId := some d.Id } = .ok resp)
    (hrules : resp.WhitelistRules
      = (expandIPv4Whitelist cs).map fun rule => { Cidr := rule.Cidr }) :
    (expandIPv4Whitelist cs).length = cs.length
      ∧ (∀ i, ((expandIPv4Whitelist cs).get? i).map (·.Cidr) = (cs.get? i).map some)
      ∧ (resourceAwsMediaLiveInputSecurityGroupRead h d meta log).1 = none
      ∧ (resourceAwsMediaLiveInputSecurityGroupRead h d meta log).2.1.attrs.ipv4_whitelist
        = cs := by
  refine ⟨by simp [expandIPv4Whitelist_eq_map], ?_, ?_, ?_⟩
  · intro i
    simp only [expandIPv4Whitelist_eq_map, List.get?_eq_getElem?, List.getElem?_map]
    cases cs[i]? <;> rfl
  · simp [resourceAwsMediaLiveInputSecurityGroupRead, MediaLive.DescribeInputSecurityGroup,
      hresp, setTags]
  · simp [resourceAwsMediaLiveInputSecurityGroupRead, MediaLive.DescribeInputSecurityGroup,
      hresp, setTags, ResourceData.Set, hrules, foldl_append_singleton,
      expandIPv4Whitelist_eq_map, Function.comp, aws.StringValue]
    show List.map (fun c => c) cs = cs
    simp

theorem whitelist_round_trip_witness :
    (resourceAwsMediaLiveInputSecurityGroupRead (plainHelpers 3) ⟨"77", {}, {}⟩
        ⟨whitelistService [{ Cidr := some "192.168.0.1/32" }]⟩ []).2.1.attrs.ipv4_whitelist
      = ["192.168.0.1/32"] :=
  (whitelist_round_trip (plainHelpers 3) ⟨"77", {}, {}⟩
    ⟨whitelistService [{ Cidr := some "192.168.0.1/32" }]⟩ [] ["192.168.0.1/32"]
    { Id := some "77", State := some "IDLE", WhitelistRules := [{ Cidr := some "192.168.0.1/32" }] }
    rfl rfl).2.2.2

/-- C18: validation of the input type.  The validation function of the attribute
`type` returns no error if and only if the value is exactly RTMP_PUSH, RTP_PUSH or
UDP_PUSH, and one error otherwise; the other input types of the service and
the lower-case spellings are rejected.  The function is given the value alone, no
connection, so it is decided before any remote call. -/
theorem inputType_validation (v k : String) :
    (inputTypeValidateFunc v k = [] ↔ v = "RTMP_PUSH" ∨ v = "RTP_PUSH" ∨ v = "UDP_PUSH")
      ∧ (inputTypeValidateFunc v k).length ≤ 1
      ∧ (∀ w ∈ ["INPUT_DEVICE", "MEDIACONNECT", "MP4_FILE", "RTMP_PULL", "URL_PULL",
            "rtmp_push", "rtp_push", "udp_push", "Rtmp_Push", ""],
          inputTypeValidateFunc w k ≠ []) := by
  have key : inputTypeValidateFunc v k = [] ↔ v = "RTMP_PUSH" ∨ v = "RTP_PUSH" ∨ v = "UDP_PUSH" := by
    simp only [inputTypeValidateFunc, validation.StringInSlice, validAwsMediaLiveInputTypes,
      medialive.InputTypeRtmpPush, medialive.InputTypeRtpPush, medialive.InputTypeUdpPush]
    by_cases h1 : v = "RTMP_PUSH" <;> by_cases h2 : v = "RTP_PUSH" <;>
      by_cases h3 : v = "UDP_PUSH" <;> simp [h1, h2, h3]
  refine ⟨key, ?_, ?_⟩
  · simp only [inputTypeValidateFunc, validation.StringInSlice]
    split <;> simp
  · intro w hw
    have hk : ∀ u : String, ¬ (u = "RTMP_PUSH" ∨ u = "RTP_PUSH" ∨ u = "UDP_PUSH") →
        inputTypeValidateFunc u k ≠ [] := by
      intro u hu
      simp only [inputTypeValidateFunc, validation.StringInSlice, validAwsMediaLiveInputTypes,
        medialive.InputTypeRtmpPush, medialive.InputTypeRtpPush, medialive.InputTypeUdpPush]
      simp only [not_or] at hu
      simp [hu.1, hu.2.1, hu.2.2]
    simp only [List.mem_cons, List.mem_singleton, List.not_mem_nil, or_false] at hw
    rcases hw with rfl | rfl | rfl | rfl | rfl | rfl | rfl | rfl | rfl | rfl <;>
      exact hk _ (by decide)

/-- C20: `flattenInputDestinations` preserves the structure.  The output is the input
mapped destination by destination, so it has the same length and order; an entry has
the ip, port and url of its destination, the endpoint that `endpointFromURL` derives
from the url, and the key `vpc`, holding the availability zone and the network
interface ID, exactly when the Vpc of the destination is not nil.  The empty list gives
the empty list. -/
theorem flattenInputDestinations_structure (is : List medialive.InputDestination) :
    flattenInputDestinations is = is.map flattenOne
      ∧ (flattenInputDestinations is).length = is.length
      ∧ (∀ n, (flattenInputDestinations is).get? n = (is.get? n).map flattenOne)
      ∧ (∀ i : medialive.InputDestination,
          (flattenOne i).ip = i.Ip ∧ (flattenOne i).port = i.Port ∧ (flattenOne i).url = i.Url
            ∧ (flattenOne i).endpoint = endpointFromURL i.Url
            ∧ ((flattenOne i).vpc.isSome ↔ i.Vpc.isSome)
            ∧ (∀ vpc, i.Vpc = some vpc →
                (flattenOne i).vpc = some { AvailabilityZone := vpc.AvailabilityZone,
                                            NetworkInterfaceId := vpc.NetworkInterfaceId }))
      ∧ flattenInputDestinations [] = [] := by
  refine ⟨flattenInputDestinations_eq_map is, by simp [flattenInputDestinations_eq_map],
    fun n => by simp [flattenInputDestinations_eq_map], ?_, rfl⟩
  intro i
  refine ⟨rfl, rfl, rfl, rfl, ?_, ?_⟩
  · cases hv : i.Vpc <;> simp [flattenOne, hv]
  · intro vpc hv
    simp [flattenOne, hv]

theorem inputType_validation_witness :
    inputTypeValidateFunc "RTMP_PUSH" "type" = []
      ∧ inputTypeValidateFunc "URL_PULL" "type" ≠ []
      ∧ inputTypeValidateFunc "rtmp_push" "type" ≠ [] :=
  have w := inputType_validation "RTMP_PUSH" "type"
  ⟨w.1.mpr (Or.inl rfl), w.2.2 "URL_PULL" (by decide), w.2.2 "rtmp_push" (by decide)⟩

theorem flattenInputDestinations_structure_witness :
    flattenInputDestinations
        [{ Ip := some "10.0.0.1", Port := some "1935", Url := some "rtmp://10.0.0.1:1935/test" },
         { Ip := some "10.0.0.2", Port := some "1935", Url := some "rtmp://10.0.0.2:1935/test",
           Vpc := some { AvailabilityZone := some "us-east-1a",
                         NetworkInterfaceId := some "eni-1" } }]
      = [{ endpoint := "test", ip := some "10.0.0.1", port := some "1935",
           url := some "rtmp://10.0.0.1:1935/test" },
         { endpoint := "test", ip := some "10.0.0.2", port := some "1935",
           url := some "rtmp://10.0.0.2:1935/test",
           vpc := some { AvailabilityZone := some "us-east-1a",
                         NetworkInterfaceId := some "eni-1" } }] :=
  (flattenInputDestinations_structure _).1.trans (by decide)

theorem resourceAwsMediaLiveInputCreate_of_vpc_nil (h : Helpers) (d : ResourceData InputAttrs)
    (meta : AWSClient) (log : List Event) (hv : d.attrs.vpc = []) :
    resourceAwsMediaLiveInputCreate h d meta log
      = .ok (match meta.medialiveconn.createInput log.length (createInputRequestOf h d) with
          | .error err =>
            (some (fmt.Errorf ("error creating MediaLive Input: " ++ err.Error)), d,
              log ++ [Event.mk (Call.CreateInput (createInputRequestOf h d))
                (some (GoError.client err))])
          | .ok resp =>
            resourceAwsMediaLiveInputRead h (d.SetId (aws.StringValue resp.Id)) meta
              (log ++ [Event.mk (Call.CreateInput (createInputRequestOf h d)) none])) := by
  have hreq : (let input : medialive.CreateInputInput :=
        { Name := some (d.Get (·.name)), Type_ := some (d.Get (·.type_)) }
      let input :=
        if (d.GetOk (·.destinations)).2 then
          { input with Destinations := expandInputDestinationRequest (d.GetOk (·.destinations)).1 }
        else input
      let input :=
        if (d.GetOk (·.input_security_groups)).2 then
          { input with
            InputSecurityGroups := h.expandStringList (d.GetOk (·.input_security_groups)).1 }
        else input
      if (d.Get (·.tags)).length > 0 then { input with Tags := h.createTags (d.Get (·.tags)) }
      else input) = createInputRequestOf h d := by
    simp only [ResourceData.GetOk, ResourceData.Get, createInputRequestOf]
    cases d.attrs.destinations <;> cases d.attrs.input_security_groups <;>
      cases d.attrs.tags <;> simp
  unfold resourceAwsMediaLiveInputCreate
  simp only [ResourceData.GetOk, hv, List.isEmpty_nil, Bool.not_true, Bool.false_eq_true,
    if_false, MediaLive.CreateInput]
  simp only [ResourceData.GetOk] at hreq
  rw [hreq]
  cases meta.medialiveconn.createInput log.length (createInputRequestOf h d) <;> rfl

theorem resourceAwsMediaLiveInputCreate_of_vpc (h : Helpers) (d : ResourceData InputAttrs)
    (meta : AWSClient) (log : List Event) (hv : d.attrs.vpc ≠ []) :
    resourceAwsMediaLiveInputCreate h d meta log
      = .error (GoPanic.interfaceConversion "[]interface {}" "*schema.Set") := by
  unfold resourceAwsMediaLiveInputCreate
  cases hvpc : d.attrs.vpc with
  | nil => exact absurd hvpc hv
  | cons v vs => simp [ResourceData.GetOk, hvpc, vpcValue, GoValue.assertSetList, GoValue.typeName]

theorem resourceAwsMediaLiveInputSecurityGroupCreate_eq (h : Helpers)
    (d : ResourceData InputSecurityGroupAttrs) (meta : AWSClient) (log : List Event) :
    resourceAwsMediaLiveInputSecurityGroupCreate h d meta log
      = match meta.medialiveconn.createInputSecurityGroup log.length
            (createInputSecurityGroupRequestOf h d) with
        | .error err =>
          (some (fmt.Errorf ("error creating MediaLive Input Security Group: " ++ err.Error)), d,
            log ++ [Event.mk (Call.CreateInputSecurityGroup (createInputSecurityGroupRequestOf h d))
              (some (GoError.client err))])
        | .ok resp =>
          resourceAwsMediaLiveInputSecurityGroupRead h (d.SetId (aws.StringValue resp.Id)) meta
            (log ++ [Event.mk (Call.CreateInputSecurityGroup
              (createInputSecurityGroupRequestOf h d)) none]) := by
  have hreq : (let input : medialive.CreateInputSecurityGroupInput :=
        { WhitelistRules := expandIPv4Whitelist (d.Get (·.ipv4_whitelist)) }
      if (d.Get (·.tags)).length > 0 then { input with Tags := h.createTags (d.Get (·.tags)) }
      else input) = createInputSecurityGroupRequestOf h d := by
    simp only [ResourceData.Get, createInputSecurityGroupRequestOf]
    cases d.attrs.tags <;> simp
  unfold resourceAwsMediaLiveInputSecurityGroupCreate
  simp only [MediaLive.CreateInputSecurityGroup]
  simp only at hreq
  rw [hreq]
  cases meta.medialiveconn.createInputSecurityGroup log.length
    (createInputSecurityGroupRequestOf h d) <;> rfl

theorem resourceAwsMediaLiveInputRead_id (h : Helpers) (d : ResourceData InputAttrs)
    (meta : AWSClient) (log : List Event) :
    (resourceAwsMediaLiveInputRead h d meta log).2.1.Id = d.Id := by
  unfold resourceAwsMediaLiveInputRead
  simp only [MediaLive.DescribeInput, setTags]
  cases meta.medialiveconn.describeInput log.length { InputId := some d.Id } with
  | error e => rfl
  | ok resp =>
    simp only [ResourceData.Set, ResourceData.Id]
    split <;> rfl

theorem resourceAwsMediaLiveInputSecurityGroupRead_id (h : Helpers)
    (d : ResourceData InputSecurityGroupAttrs) (meta : AWSClient) (log : List Event) :
    (resourceAwsMediaLiveInputSecurityGroupRead h d meta log).2.1.Id = d.Id := by
  unfold resourceAwsMediaLiveInputSecurityGroupRead
  simp only [MediaLive.DescribeInputSecurityGroup, setTags]
  cases meta.medialiveconn.describeInputSecurityGroup log.length
    { InputSecurityGroupId := some d.Id } <;> rfl

/-- C12: Create failure.  If the remote create call returns an error, Create of an
input (whose create call is reached when no VPC block is supplied) and Create of an
input security group return `error creating MediaLive Input: ` resp.
`error creating MediaLive Input Security Group: ` followed by the text of the remote
error, leave the resource data, the ID included, as they were, and make no other
call: the trace is the create call alone. -/
theorem create_failure (h : Helpers) (meta : AWSClient) (log : List Event)
    (dI : ResourceData InputAttrs) (dG : ResourceData InputSecurityGroupAttrs)
    (err : ClientError) :
    (dI.attrs.vpc = [] →
      meta.medialiveconn.createInput log.length (createInputRequestOf h dI) = .error err →
      resourceAwsMediaLiveInputCreate h dI meta log
        = .ok (some (fmt.Errorf ("error creating MediaLive Input: " ++ err.Error)), dI,
            log ++ [Event.mk (Call.CreateInput (createInputRequestOf h dI))
              (some (GoError.client err))]))
    ∧ (meta.medialiveconn.createInputSecurityGroup log.length
          (createInputSecurityGroupRequestOf h dG) = .error err →
      resourceAwsMediaLiveInputSecurityGroupCreate h dG meta log
        = (some (fmt.Errorf ("error creating MediaLive Input Security Group: " ++ err.Error)),
            dG,
            log ++ [Event.mk (Call.CreateInputSecurityGroup
              (createInputSecurityGroupRequestOf h dG)) (some (GoError.client err))])) := by
  constructor
  · intro hv hfail
    rw [resourceAwsMediaLiveInputCreate_of_vpc_nil h dI meta log hv, hfail]
  · intro hfail
    rw [resourceAwsMediaLiveInputSecurityGroupCreate_eq, hfail]

theorem create_failure_witness :
    resourceAwsMediaLiveInputCreate (plainHelpers 3) newInput
        ⟨closedService (ClientError.aws "ForbiddenException" "denied")⟩ []
      = .ok (some (GoError.errorf "error creating MediaLive Input: ForbiddenException: denied"),
          newInput,
          [Event.mk (Call.CreateInput
              { Name := some "live", Type_ := some "RTMP_PUSH",
                Destinations := [{ StreamName := some "test" }], InputSecurityGroups := ["77"],
                Tags := [("test", "tf_acceptance")] })
            (some (GoError.client (ClientError.aws "ForbiddenException" "denied")))])
    ∧ resourceAwsMediaLiveInputSecurityGroupCreate (plainHelpers 3) newSecurityGroup
        ⟨closedService (ClientError.aws "ForbiddenException" "denied")⟩ []
      = (some (GoError.errorf
            "error creating MediaLive Input Security Group: ForbiddenException: denied"),
          newSecurityGroup,
          [Event.mk (Call.CreateInputSecurityGroup
              { WhitelistRules := [{ Cidr := some "192.168.0.1/32" }] })
            (some (GoError.client (ClientError.aws "ForbiddenException" "denied")))]) :=
  have w := create_failure (plainHelpers 3)
    ⟨closedService (ClientError.aws "ForbiddenException" "denied")⟩ [] newInput
    newSecurityGroup (ClientError.aws "ForbiddenException" "denied")
  ⟨w.1 rfl rfl, w.2 rfl⟩

/-- C13: Create success.  When the remote create call succeeds, Create of an input
(whose create call is reached when no VPC block is supplied) and Create of an input
security group set the ID to the ID of the create response and return the result of
Read on the resource data with that ID: the ID is kept, the create call is followed by
exactly one Describe call, whose key is that ID, and Create returns nil exactly when
that Describe succeeds. -/
theorem create_success (h : Helpers) (meta : AWSClient) (log : List Event)
    (dI : ResourceData InputAttrs) (dG : ResourceData InputSecurityGroupAttrs)
    (respI : medialive.CreateInputOutput) (respG : medialive.CreateInputSecurityGroupOutput) :
    (dI.attrs.vpc = [] →
      meta.medialiveconn.createInput log.length (createInputRequestOf h dI) = .ok respI →
      resourceAwsMediaLiveInputCreate h dI meta log
          = .ok (resourceAwsMediaLiveInputRead h (dI.SetId (aws.StringValue respI.Id)) meta
              (log ++ [Event.mk (Call.CreateInput (createInputRequestOf h dI)) none]))
        ∧ (resourceAwsMediaLiveInputRead h (dI.SetId (aws.StringValue respI.Id)) meta
              (log ++ [Event.mk (Call.CreateInput (createInputRequestOf h dI)) none])).2.1.Id
            = aws.StringValue respI.Id
        ∧ (resourceAwsMediaLiveInputRead h (dI.SetId (aws.StringValue respI.Id)) meta
              (log ++ [Event.mk (Call.CreateInput (createInputRequestOf h dI)) none])).2.2
            = log ++ [Event.mk (Call.CreateInput (createInputRequestOf h dI)) none,
                Event.mk (Call.DescribeInput { InputId := some (aws.StringValue respI.Id) })
                  (errOf (meta.medialiveconn.describeInput (log.length + 1)
                    { InputId := some (aws.StringValue respI.Id) }))]
        ∧ ((resourceAwsMediaLiveInputRead h (dI.SetId (aws.StringValue respI.Id)) meta
              (log ++ [Event.mk (Call.CreateInput (createInputRequestOf h dI)) none])).1 = none
            ↔ errOf (meta.medialiveconn.describeInput (log.length + 1)
                { InputId := some (aws.StringValue respI.Id) }) = none))
    ∧ (meta.medialiveconn.createInputSecurityGroup log.length
          (createInputSecurityGroupRequestOf h dG) = .ok respG →
      resourceAwsMediaLiveInputSecurityGroupCreate h dG meta log
          = resourceAwsMediaLiveInputSecurityGroupRead h (dG.SetId (aws.StringValue respG.Id))
              meta (log ++ [Event.mk (Call.CreateInputSecurityGroup
                (createInputSecurityGroupRequestOf h dG)) none])
        ∧ (resourceAwsMediaLiveInputSecurityGroupCreate h dG meta log).2.1.Id
            = aws.StringValue respG.Id
        ∧ (resourceAwsMediaLiveInputSecurityGroupCreate h dG meta log).2.2
            = log ++ [Event.mk (Call.CreateInputSecurityGroup
                  (createInputSecurityGroupRequestOf h dG)) none,
                Event.mk (Call.DescribeInputSecurityGroup
                    { InputSecurityGroupId := some (aws.StringValue respG.Id) })
                  (errOf (meta.medialiveconn.describeInputSecurityGroup (log.length + 1)
                    { InputSecurityGroupId := some (aws.StringValue respG.Id) }))]
        ∧ ((resourceAwsMediaLiveInputSecurityGroupCreate h dG meta log).1 = none
            ↔ errOf (meta.medialiveconn.describeInputSecurityGroup (log.length + 1)
                { InputSecurityGroupId := some (aws.StringValue respG.Id) }) = none)) := by
  constructor
  · intro hv hok
    refine ⟨?_, ?_, ?_, ?_⟩
    · rw [resourceAwsMediaLiveInputCreate_of_vpc_nil h dI meta log hv, hok]
    · rw [resourceAwsMediaLiveInputRead_id]
      rfl
    · rw [(resourceAwsMediaLiveInputRead_trace h _ meta _).1]
      simp [ResourceData.SetId, ResourceData.Id]
    · rw [(resourceAwsMediaLiveInputRead_trace h _ meta _).2]
      simp [ResourceData.SetId, ResourceData.Id]
  · intro hok
    have heq := resourceAwsMediaLiveInputSecurityGroupCreate_eq h dG meta log
    rw [hok] at heq
    simp only at heq
    rw [heq]
    refine ⟨rfl, ?_, ?_, ?_⟩
    · rw [resourceAwsMediaLiveInputSecurityGroupRead_id]
      rfl
    · rw [(resourceAwsMediaLiveInputSecurityGroupRead_trace h _ meta _).1]
      simp [ResourceData.SetId, ResourceData.Id]
    · rw [(resourceAwsMediaLiveInputSecurityGroupRead_trace h _ meta _).2]
      simp [ResourceData.SetId, ResourceData.Id]

theorem create_success_witness :
    (resourceAwsMediaLiveInputCreate (plainHelpers 3) newInput
        ⟨steadyService "DETACHED"⟩ []).toOption.map (fun r => (r.1, r.2.1.Id, r.2.2.length))
      = some (none, "1234567", 2)
    ∧ (resourceAwsMediaLiveInputSecurityGroupCreate (plainHelpers 3) newSecurityGroup
        ⟨steadyService "IDLE"⟩ []).2.1.Id = "7654321" :=
  have w := create_success (plainHelpers 3) ⟨steadyService "DETACHED"⟩ [] newInput
    newSecurityGroup { Id := some "1234567" } { Id := some "7654321" }
  have wG := create_success (plainHelpers 3) ⟨steadyService "IDLE"⟩ [] newInput
    newSecurityGroup { Id := some "1234567" } { Id := some "7654321" }
  ⟨by rw [(w.1 rfl rfl).1]; rfl, (wG.2 rfl).2.1⟩

/-- C15: what Create of an input sends.  When no VPC block is supplied the one create
request carries name and type, and destinations, security groups and tags each exactly
when supplied, with the VPC unset.  When a VPC block is supplied Create sends nothing:
the assertion of the attribute `vpc`, a list, to a set panics before the create
call. -/
theorem create_request_fields (h : Helpers) (meta : AWSClient) (log : List Event)
    (d : ResourceData InputAttrs) :
    (d.attrs.vpc = [] →
      ∃ res, resourceAwsMediaLiveInputCreate h d meta log = .ok res
        ∧ (res.2.2.drop log.length).head?.map (·.call)
          = some (Call.CreateInput
              { Name := some d.attrs.name
                Type_ := some d.attrs.type_
                Destinations :=
                  if d.attrs.destinations = [] then []
                  else expandInputDestinationRequest d.attrs.destinations
                InputSecurityGroups :=
                  if d.attrs.input_security_groups = [] then []
                  else h.expandStringList d.attrs.input_security_groups
                Tags := if d.attrs.tags = [] then [] else h.createTags d.attrs.tags
                Vpc := none }))
    ∧ (d.attrs.vpc ≠ [] →
      resourceAwsMediaLiveInputCreate h d meta log
        = .error (GoPanic.interfaceConversion "[]interface {}" "*schema.Set")) := by
  constructor
  · intro hv
    refine ⟨_, resourceAwsMediaLiveInputCreate_of_vpc_nil h d meta log hv, ?_⟩
    cases meta.medialiveconn.createInput log.length (createInputRequestOf h d) with
    | error e => simp [createInputRequestOf]
    | ok resp =>
      simp [(resourceAwsMediaLiveInputRead_trace h _ meta _).1, createInputRequestOf]
  · exact resourceAwsMediaLiveInputCreate_of_vpc h d meta log

theorem create_request_fields_witness :
    vpcInput.attrs.vpc ≠ []
      ∧ resourceAwsMediaLiveInputCreate (plainHelpers 3) vpcInput ⟨steadyService "DETACHED"⟩ []
        = .error (GoPanic.interfaceConversion "[]interface {}" "*schema.Set") :=
  ⟨by decide,
    (create_request_fields (plainHelpers 3) ⟨steadyService "DETACHED"⟩ [] vpcInput).2
      (by decide)⟩

/-- C16, counterexample: two inputs to create whose VPC block conforms to the schema,
one with two security group IDs and one with none.  For both Create builds no request:
its own assertion of the attribute `vpc`, a list, to a set panics at the call site of
`expandInputVpcRequest`, before the function is entered, so there is no request whose
SecurityGroupIds could be unset. -/
theorem create_with_vpc_block_builds_no_request :
    resourceAwsMediaLiveInputCreate (plainHelpers 3)
        { id := "", state := {},
          attrs := { name := "live", type_ := "RTMP_PUSH",
                     vpc := [{ security_group_ids := ["sg-1", "sg-2"],
                               subnet_ids := ["subnet-1", "subnet-2"] }] } }
        ⟨steadyService "DETACHED"⟩ []
      = .error (GoPanic.interfaceConversion "[]interface {}" "*schema.Set")
    ∧ resourceAwsMediaLiveInputCreate (plainHelpers 3)
        { id := "", state := {},
          attrs := { name := "live", type_ := "RTMP_PUSH",
                     vpc := [{ security_group_ids := [],
                               subnet_ids := ["subnet-1", "subnet-2"] }] } }
        ⟨steadyService "DETACHED"⟩ []
      = .error (GoPanic.interfaceConversion "[]interface {}" "*schema.Set") :=
  ⟨rfl, rfl⟩

/-- C16, amended: Create forwards no VPC security group IDs, and not by way of
`expandInputVpcRequest`.  For every desired state: when it supplies a VPC block,
whatever the security group IDs and the subnet IDs of the block, Create panics on its
own assertion of the attribute `vpc` to a set, before `expandInputVpcRequest` is entered
and before the create call; when it supplies none, Create returns and every create
request in the trace that it adds has its VPC unset. -/
theorem create_forwards_no_vpc_security_groups (h : Helpers) (meta : AWSClient)
    (log : List Event) (d : ResourceData InputAttrs) :
    (∀ (v : VpcAttrs) (others : List VpcAttrs), d.attrs.vpc = v :: others →
      resourceAwsMediaLiveInputCreate h d meta log
        = .error (GoPanic.interfaceConversion "[]interface {}" "*schema.Set"))
    ∧ (d.attrs.vpc = [] →
      ∃ res, resourceAwsMediaLiveInputCreate h d meta log = .ok res
        ∧ ∀ ev ∈ res.2.2.drop log.length, ∀ input,
            ev.call = Call.CreateInput input → input.Vpc = none) := by
  constructor
  · intro v others hv
    exact resourceAwsMediaLiveInputCreate_of_vpc h d meta log (by simp [hv])
  · intro hv
    refine ⟨_, resourceAwsMediaLiveInputCreate_of_vpc_nil h d meta log hv, ?_⟩
    have hnone : (createInputRequestOf h d).Vpc = none := by
      simp only [createInputRequestOf]
    cases meta.medialiveconn.createInput log.length (createInputRequestOf h d) with
    | error e =>
      intro ev hev input hcall
      simp only [List.drop_left, List.mem_singleton] at hev
      subst hev
      cases hcall
      exact hnone
    | ok resp =>
      intro ev hev input hcall
      simp only [(resourceAwsMediaLiveInputRead_trace h _ meta _).1, List.append_assoc,
        List.drop_left, List.singleton_append, List.mem_cons, List.mem_singleton,
        List.not_mem_nil, or_false] at hev
      rcases hev with hev | hev
      · subst hev
        cases hcall
        exact hnone
      · subst hev
        cases hcall

theorem create_forwards_no_vpc_security_groups_witness :
    resourceAwsMediaLiveInputCreate (plainHelpers 3) vpcInput ⟨steadyService "DETACHED"⟩ []
        = .error (GoPanic.interfaceConversion "[]interface {}" "*schema.Set")
      ∧ ∃ res, resourceAwsMediaLiveInputCreate (plainHelpers 3) newInput
            ⟨steadyService "DETACHED"⟩ [] = .ok res
          ∧ ∀ ev ∈ res.2.2.drop ([] : List Event).length, ∀ input,
              ev.call = Call.CreateInput input → input.Vpc = none :=
  ⟨(create_forwards_no_vpc_security_groups (plainHelpers 3) ⟨steadyService "DETACHED"⟩ []
      vpcInput).1 _ _ rfl,
    (create_forwards_no_vpc_security_groups (plainHelpers 3) ⟨steadyService "DETACHED"⟩ []
      newInput).2 rfl⟩

/-- C19, counterexample: the remote record has no destinations, the local record holds
one, and after the successful Read the local destinations are not empty: they are the
old ones. -/
theorem inputRead_keeps_destinations_when_remote_has_none :
    (resourceAwsMediaLiveInputRead (plainHelpers 3) rewiredInput
        ⟨steadyService "DETACHED"⟩ []).1 = none
      ∧ (resourceAwsMediaLiveInputRead (plainHelpers 3) rewiredInput
        ⟨steadyService "DETACHED"⟩ []).2.1.attrs.destinations = [{ endpoint := "main" }]
      ∧ (resourceAwsMediaLiveInputRead (plainHelpers 3) rewiredInput
        ⟨steadyService "DETACHED"⟩ []).2.1.attrs.destinations ≠ [] := by
  decide

/-- C19, amended: after every successful Read of an input, whatever the local record
held before, the local arn, input_class and name are those of the remote record and
the local tags are the remote tags as the provider filters them; when the remote
record has at least one destination the local destinations are the remote ones, in
order, each with its ip, port, url and the endpoint derived from the url; when the
remote record has no destination the local destinations are left as they were. -/
theorem inputRead_populates (h : Helpers) (d : ResourceData InputAttrs) (meta : AWSClient)
    (log : List Event) (resp : medialive.DescribeInputOutput)
    (hresp : meta.medialiveconn.describeInput log.length { InputId := some d.Id } = .ok resp) :
    (resourceAwsMediaLiveInputRead h d meta log).1 = none
      ∧ (resourceAwsMediaLiveInputRead h d meta log).2.1.attrs.arn = aws.StringValue resp.Arn
      ∧ (resourceAwsMediaLiveInputRead h d meta log).2.1.attrs.input_class
        = aws.StringValue resp.InputClass
      ∧ (resourceAwsMediaLiveInputRead h d meta log).2.1.attrs.name = aws.StringValue resp.Name
      ∧ (resourceAwsMediaLiveInputRead h d meta log).2.1.attrs.tags = h.readTags resp.Tags
      ∧ (resp.Destinations ≠ [] →
          (resourceAwsMediaLiveInputRead h d meta log).2.1.attrs.destinations.map
              (fun x => (x.endpoint, x.ip, x.port, x.url))
            = resp.Destinations.map fun i =>
                (endpointFromURL i.Url, aws.StringValue i.Ip, aws.StringValue i.Port,
                  aws.StringValue i.Url))
      ∧ (resp.Destinations = [] →
          (resourceAwsMediaLiveInputRead h d meta log).2.1.attrs.destinations
            = d.attrs.destinations) := by
  have hread : resourceAwsMediaLiveInputRead h d meta log
      = (none,
          { d with
            attrs :=
              { d.attrs with
                arn := aws.StringValue resp.Arn
                destinations :=
                  if resp.Destinations.length > 0 then
                    (flattenInputDestinations resp.Destinations).map (·.toAttrs)
                  else d.attrs.destinations
                input_class := aws.StringValue resp.InputClass
                name := aws.StringValue resp.Name
                tags := h.readTags resp.Tags } },
          log ++ [Event.mk (Call.DescribeInput { InputId := some d.Id }) none]) := by
    unfold resourceAwsMediaLiveInputRead
    simp only [MediaLive.DescribeInput, hresp, setTags, ResourceData.Set, errOf]
    split <;> rfl
  rw [hread]
  refine ⟨rfl, rfl, rfl, rfl, rfl, ?_, ?_⟩
  · intro hne
    have hlen : resp.Destinations.length > 0 := List.length_pos.mpr hne
    simp only [hlen, if_true, flattenInputDestinations_eq_map, List.map_map]
    apply List.map_congr_left
    intro i _
    rfl
  · intro he
    simp [he]

theorem inputRead_populates_witness :
    (resourceAwsMediaLiveInputRead (plainHelpers 3) rewiredInput ⟨describingService⟩
        []).2.1.attrs.input_class = "STANDARD"
      ∧ (resourceAwsMediaLiveInputRead (plainHelpers 3) rewiredInput ⟨describingService⟩
        []).2.1.attrs.destinations.map (fun x => (x.endpoint, x.ip, x.port, x.url))
        = [("test", "10.0.0.1", "1935", "rtmp://10.0.0.1:1935/test")] :=
  have w := inputRead_populates (plainHelpers 3) rewiredInput ⟨describingService⟩ []
    { Id := some "42", State := some "DETACHED",
      Arn := some "arn:aws:medialive:us-east-1:123456789012:input:1234567",
      InputClass := some "STANDARD", Name := some "live",
      Destinations := [{ Ip := some "10.0.0.1", Port := some "1935",
                         Url := some "rtmp://10.0.0.1:1935/test" }],
      Tags := [("test", "tf_acceptance")] } rfl
  ⟨w.2.2.1, (w.2.2.2.2.2.1 (by decide)).trans (by decide)⟩

theorem blamesUpdate_of_clean (ev : Event) (err : Option GoError) (hev : ev.err = none) :
    BlamesUpdate ev err := by
  intro req e heq
  rw [heq] at hev
  simp at hev

theorem messageOk_updateStage {D : Type} (step : List Event → Option ClientError × List Event)
    (wrap : ClientError → GoError) (d : D)
    (rest : List Event → Option GoError × D × List Event) (hstep : StepBlames step wrap)
    (hrest : ∀ log, MessageOk log (rest log).1 (rest log).2.2) (log : List Event) :
    MessageOk log (updateStage step wrap d rest log).1 (updateStage step wrap d rest log).2.2 := by
  unfold updateStage
  rcases hstep log with h0 | ⟨ev, h2, h3, h4⟩
  · rw [h0]
    exact hrest log
  · rcases hs : step log with ⟨err, log1⟩
    rw [hs] at h2 h3 h4
    simp only at h2 h3 h4
    subst h2
    cases err with
    | none =>
      obtain ⟨evs, e1, e2⟩ := hrest (log ++ [ev])
      refine ⟨ev :: evs, by simp [e1], ?_⟩
      intro ev' hm
      rcases List.mem_cons.mp hm with rfl | hm
      · exact blamesUpdate_of_clean _ _ (h3 rfl)
      · exact e2 ev' hm
    | some e =>
      refine ⟨[ev], rfl, ?_⟩
      intro ev' hm
      rw [List.mem_singleton] at hm
      subst hm
      exact h4 e rfl

theorem messageOk_tagStage {D : Type} (step : List Event → Option GoError × List Event)
    (wrap : GoError → GoError) (d : D)
    (rest : List Event → Option GoError × D × List Event) (hstep : StepBlames step wrap)
    (hrest : ∀ log, MessageOk log (rest log).1 (rest log).2.2) (log : List Event) :
    MessageOk log (tagStage step wrap d rest log).1 (tagStage step wrap d rest log).2.2 := by
  unfold tagStage
  rcases hstep log with h0 | ⟨ev, h2, h3, h4⟩
  · rw [h0]
    exact hrest log
  · rcases hs : step log with ⟨err, log1⟩
    rw [hs] at h2 h3 h4
    simp only at h2 h3 h4
    subst h2
    cases err with
    | none =>
      obtain ⟨evs, e1, e2⟩ := hrest (log ++ [ev])
      refine ⟨ev :: evs, by simp [e1], ?_⟩
      intro ev' hm
      rcases List.mem_cons.mp hm with rfl | hm
      · exact blamesUpdate_of_clean _ _ (h3 rfl)
      · exact e2 ev' hm
    | some e =>
      refine ⟨[ev], rfl, ?_⟩
      intro ev' hm
      rw [List.mem_singleton] at hm
      subst hm
      exact h4 e rfl

theorem stepBlames_updateInput (c : Bool) (conn : MediaLive) (req : medialive.UpdateInputInput) :
    StepBlames (fun log => if c then conn.UpdateInput req log else (none, log))
      (fun err => fmt.Errorf ("error updating MediaLive Input: " ++ err.Error)) := by
  intro log
  cases c with
  | false => exact Or.inl rfl
  | true =>
    refine Or.inr ⟨_, rfl, ?_, ?_⟩
    · intro hn
      simp only [MediaLive.UpdateInput, if_true] at hn
      simp [MediaLive.UpdateInput, hn]
    · intro e he req' e' heq
      simp only [MediaLive.UpdateInput, if_true] at he heq
      rw [he] at heq
      simp only [Option.map, Event.mk.injEq, Call.UpdateInput.injEq, Option.some.injEq,
        GoError.client.injEq] at heq
      rw [heq.2]

theorem stepBlames_updateTags (c : Bool) (conn : MediaLive) (arn : String) (o n : Tags)
    (wrap : GoError → GoError) :
    StepBlames (fun log =>
      if c then keyvaluetags.MedialiveUpdateTags conn arn o n log else (none, log)) wrap := by
  intro log
  cases c with
  | false => exact Or.inl rfl
  | true =>
    refine Or.inr ⟨_, rfl, ?_, ?_⟩
    · intro hn
      simp only [keyvaluetags.MedialiveUpdateTags, if_true] at hn
      simp [keyvaluetags.MedialiveUpdateTags, hn]
    · intro e _ req' e' heq
      simp [keyvaluetags.MedialiveUpdateTags] at heq

theorem messageOk_inputRead (h : Helpers) (d : ResourceData InputAttrs) (meta : AWSClient)
    (log : List Event) :
    MessageOk log (resourceAwsMediaLiveInputRead h d meta log).1
      (resourceAwsMediaLiveInputRead h d meta log).2.2 := by
  refine ⟨_, (resourceAwsMediaLiveInputRead_trace h d meta log).1, ?_⟩
  intro ev hm req e heq
  rw [List.mem_singleton] at hm
  rw [hm] at heq
  simp at heq

theorem messageOk_inputUpdate (h : Helpers) (d : ResourceData InputAttrs) (meta : AWSClient)
    (log : List Event) :
    MessageOk log (resourceAwsMediaLiveInputUpdate h d meta log).1
      (resourceAwsMediaLiveInputUpdate h d meta log).2.2 := by
  rw [resourceAwsMediaLiveInputUpdate_eq]
  refine messageOk_updateStage _ _ _ _ (stepBlames_updateInput _ _ _) (fun log => ?_) log
  refine messageOk_updateStage _ _ _ _ (stepBlames_updateInput _ _ _) (fun log => ?_) log
  refine messageOk_updateStage _ _ _ _ (stepBlames_updateInput _ _ _) (fun log => ?_) log
  exact messageOk_tagStage _ _ _ _ (stepBlames_updateTags _ _ _ _ _ _)
    (messageOk_inputRead h d meta) log

/-- C11, counterexample: against a service that rejects every update with the same
error, the Update of an input whose destinations changed and the Update of an input
whose name changed return the same error, although their requests differ. -/
theorem update_error_same_for_two_groups :
    (resourceAwsMediaLiveInputUpdate (plainHelpers 3) redirectedInput
        ⟨rejectingService (ClientError.aws "BadRequestException" "rejected")⟩ []).1
      = (resourceAwsMediaLiveInputUpdate (plainHelpers 3) renamedInput
        ⟨rejectingService (ClientError.aws "BadRequestException" "rejected")⟩ []).1
    ∧ (resourceAwsMediaLiveInputUpdate (plainHelpers 3) redirectedInput
        ⟨rejectingService (ClientError.aws "BadRequestException" "rejected")⟩ []).1
      = some (GoError.errorf "error updating MediaLive Input: BadRequestException: rejected")
    ∧ updateInputRequests (resourceAwsMediaLiveInputUpdate (plainHelpers 3) redirectedInput
        ⟨rejectingService (ClientError.aws "BadRequestException" "rejected")⟩ []).2.2
      = [{ InputId := some "42", Destinations := [{ StreamName := some "main" }] }]
    ∧ updateInputRequests (resourceAwsMediaLiveInputUpdate (plainHelpers 3) renamedInput
        ⟨rejectingService (ClientError.aws "BadRequestException" "rejected")⟩ []).2.2
      = [{ InputId := some "42", Name := some "show" }] := by
  decide

/-- C11, amended: when an update call of an input fails, the error that Update returns
is `error updating MediaLive Input: ` followed by the text of the remote error,
whichever field group (destinations, input_security_groups or name) the failed request
was for: the error names the entity type, not the field group. -/
theorem update_error_names_entity_type (h : Helpers) (d : ResourceData InputAttrs)
    (meta : AWSClient) (log pre post : List Event) (req : medialive.UpdateInputInput)
    (e : ClientError)
    (hlog : (resourceAwsMediaLiveInputUpdate h d meta log).2.2
      = log ++ pre ++ Event.mk (Call.UpdateInput req) (some (GoError.client e)) :: post) :
    (resourceAwsMediaLiveInputUpdate h d meta log).1
      = some (fmt.Errorf ("error updating MediaLive Input: " ++ e.Error)) := by
  obtain ⟨evs, h1, h2⟩ := messageOk_inputUpdate h d meta log
  rw [h1, List.append_assoc] at hlog
  have hevs : evs = pre ++ Event.mk (Call.UpdateInput req) (some (GoError.client e)) :: post :=
    List.append_cancel_left hlog
  exact h2 _ (by rw [hevs]; simp) req e rfl

theorem update_error_names_entity_type_witness :
    (resourceAwsMediaLiveInputUpdate (plainHelpers 3) renamedInput
        ⟨rejectingService (ClientError.aws "BadRequestException" "rejected")⟩ []).1
      = some (GoError.errorf "error updating MediaLive Input: BadRequestException: rejected") :=
  update_error_names_entity_type (plainHelpers 3) renamedInput
    ⟨rejectingService (ClientError.aws "BadRequestException" "rejected")⟩ [] [] []
    { InputId := some "42", Name := some "show" }
    (ClientError.aws "BadRequestException" "rejected") rfl
